import Mathlib

/-!
Voting on an Action, the Msg service surface and the precompile adapters.

A shallow embedding of three files of the repository:

* `warden/x/act/keeper/msg_server_vote_for_action.go`, the handler
  `msgServer.VoteForAction`.  It is translated statement by statement.
  Everything it calls (`ActionKeeper.Get`, `ActionKeeper.Set`,
  `Action.SetStatus`, `Action.AddOrUpdateVote`, `TryExecuteVotedAction`,
  `TryRejectVotedAction`) lives in files that are not part of the sources at
  hand, so the handler is written over a record of collaborators, `Keeper`.  A
  second layer gives the collaborators the behaviour the specification
  describes; every definition of that layer says so in its doc comment.
* `api/warden/act/v1beta1/tx_grpc.pb.go`, of which the full method names and
  the service descriptor are kept.
* `precompiles/warden/query_types.go`, the request constructors and the
  response mappers, over the library functions and helpers they call (`Env`,
  `abi.Method`).
-/

namespace Warden

/-! ## Data model -/

/-- Modelled from the spec: the status enumeration of an Action (section 3,
`Pending | Approved | Rejected | Executed | Timeout | Revoked`); the generated
declaration of `types.ActionStatus` is not among the sources. -/
inductive ActionStatus
  | pending
  | approved
  | rejected
  | executed
  | timeout
  | revoked
  deriving DecidableEq, Repr

/-- Modelled from the spec: the `String()` method of the generated enum
`types.ActionStatus`, which prints the name of the enum constant (the source
only shows the constant `ACTION_STATUS_TIMEOUT`). -/
def ActionStatus.String : ActionStatus → String
  | .pending => "ACTION_STATUS_PENDING"
  | .approved => "ACTION_STATUS_APPROVED"
  | .rejected => "ACTION_STATUS_REJECTED"
  | .executed => "ACTION_STATUS_EXECUTED"
  | .timeout => "ACTION_STATUS_TIMEOUT"
  | .revoked => "ACTION_STATUS_REVOKED"

/-- Terminal statuses of the glossary: Executed, Rejected, Timeout, Revoked. -/
def ActionStatus.isTerminal : ActionStatus → Bool
  | .executed => true
  | .rejected => true
  | .timeout => true
  | .revoked => true
  | _ => false

/-- Modelled from the spec: the vote kinds `types.ActionVoteType`.  The source
names `VOTE_TYPE_APPROVED` and `VOTE_TYPE_REJECTED`; the enum is an int32 on
the wire, so every other value is kept as `other code`. -/
inductive ActionVoteType
  | approved
  | rejected
  | other (code : Int)
  deriving DecidableEq, Repr

/-- Modelled from the spec: a vote inside `Action.votes`,
`(participant, kind, cast_at_height)` (section 3). -/
structure ActionVote where
  Participant : String
  VoteType : ActionVoteType
  CastAtHeight : Int
  deriving DecidableEq, Repr

/-- Modelled from the spec: the Action record of section 3 (`types.Action` is
generated code that is not among the sources).  `TimeoutHeight` is a uint64,
`Messages` stands for the opaque encapsulated operations. -/
structure Action where
  Id : Nat
  RuleId : Nat
  Status : ActionStatus
  Votes : List ActionVote
  TimeoutHeight : Nat
  Messages : List String
  Creator : String
  deriving DecidableEq, Repr

/-- The request `types.MsgVoteForAction`, with the three fields the handler reads. -/
structure MsgVoteForAction where
  ActionId : Nat
  Participant : String
  VoteType : ActionVoteType
  deriving DecidableEq, Repr

/-- The response `types.MsgVoteForActionResponse`. -/
structure MsgVoteForActionResponse where
  Status : String
  deriving DecidableEq, Repr

/-- The part of `sdk.Context` the handler reads: the block height, an int64. -/
structure Context where
  BlockHeight : Int
  deriving DecidableEq, Repr

/-- Error kinds.  The first group is the taxonomy of section 7 of the spec;
`unhandledVoteType` is the `fmt.Errorf("unhandled VoteType value: %v", ...)`
of the handler, which prints the vote type. -/
inductive ErrorKind
  | NotFound
  | InvalidRule
  | NotPending
  | UnknownVoteKind
  | Unauthorized
  | DispatchFailure
  | unhandledVoteType (v : ActionVoteType)
  deriving DecidableEq, Repr

/-- Modelled from the spec: an error as a failed call returns it, section 7:
"the precise error kind plus the Action/Rule's current status where
applicable".  The Go `error` values come from collaborators that are not among
the sources; the one error the handler builds itself (line 49) has the vote
type in its text and no status. -/
structure Error where
  kind : ErrorKind
  status : Option ActionStatus
  deriving DecidableEq, Repr

/-- The Go conversion `uint64(h)` of an int64: reduction modulo `2^64`. -/
def uint64 (h : Int) : Nat := (h % (2 : Int) ^ 64).toNat

/-! ## The handler -/

/-- The collaborators of the handler.  Each one is a Go function that may read
and write whatever hangs off the keeper and the context (stores, event
manager), hence the state `σ` threaded through, and may return an error.
Methods with a pointer receiver (`act.SetStatus`, `act.AddOrUpdateVote`) and
functions taking `&act` return the Action as they leave it. -/
structure Keeper (σ : Type) where
  Get : Context → Nat → σ → σ × Except Error Action
  Set : Context → Action → σ → σ × Except Error Unit
  SetStatus : Context → Action → ActionStatus → σ → σ × Except Error Action
  AddOrUpdateVote : Context → Action → String → ActionVoteType → σ → σ × Except Error Action
  TryExecuteVotedAction : Context → Action → σ → σ × Except Error Action
  TryRejectVotedAction : Context → Action → σ → σ × Except Error Action

/-- The expiry test of line 19:
`act.TimeoutHeight > 0 && act.TimeoutHeight < uint64(ctx.BlockHeight())`. -/
def expired (act : Action) (ctx : Context) : Bool :=
  decide (act.TimeoutHeight > 0) && decide (act.TimeoutHeight < uint64 ctx.BlockHeight)

/-- The handler `msgServer.VoteForAction`, lines 11 to 53.  The result pairs
the state the call leaves behind with what it returns; `return nil, err` is
`.error err`. -/
def VoteForAction {σ : Type} (k : Keeper σ) (ctx : Context) (msg : MsgVoteForAction) (s : σ) :
    σ × Except Error MsgVoteForActionResponse :=
  match k.Get ctx msg.ActionId s with
  | (s, .error err) => (s, .error err)
  | (s, .ok act) =>
    if expired act ctx then
      match k.SetStatus ctx act ActionStatus.timeout s with
      | (s, .error err) => (s, .error err)
      | (s, .ok act) =>
        match k.Set ctx act s with
        | (s, .error err) => (s, .error err)
        | (s, .ok _) => (s, .ok { Status := act.Status.String })
    else
      match k.AddOrUpdateVote ctx act msg.Participant msg.VoteType s with
      | (s, .error err) => (s, .error err)
      | (s, .ok act) =>
        match k.Set ctx act s with
        | (s, .error err) => (s, .error err)
        | (s, .ok _) =>
          if msg.VoteType = ActionVoteType.approved then
            match k.TryExecuteVotedAction ctx act s with
            | (s, .error err) => (s, .error err)
            | (s, .ok act) => (s, .ok { Status := act.Status.String })
          else if msg.VoteType = ActionVoteType.rejected then
            match k.TryRejectVotedAction ctx act s with
            | (s, .error err) => (s, .error err)
            | (s, .ok act) => (s, .ok { Status := act.Status.String })
          else
            (s, .error { kind := ErrorKind.unhandledVoteType msg.VoteType, status := none })

/-! ## Observing which collaborators a call reaches -/

/-- One call of the handler into a collaborator. -/
inductive Call
  | Get (id : Nat)
  | SetStatus (status : ActionStatus)
  | Set (act : Action)
  | AddOrUpdateVote (participant : String) (voteType : ActionVoteType)
  | TryExecuteVotedAction (act : Action)
  | TryRejectVotedAction (act : Action)
  deriving DecidableEq, Repr

/-- The same collaborators, each one noting its call in a log before doing
what it did.  The handler is run unchanged over `k.traced`; the log then
tells which statements of the handler were reached. -/
def Keeper.traced {σ : Type} (k : Keeper σ) : Keeper (σ × List Call) where
  Get := fun ctx id s =>
    (((k.Get ctx id s.1).1, s.2 ++ [Call.Get id]), (k.Get ctx id s.1).2)
  Set := fun ctx act s =>
    (((k.Set ctx act s.1).1, s.2 ++ [Call.Set act]), (k.Set ctx act s.1).2)
  SetStatus := fun ctx act st s =>
    (((k.SetStatus ctx act st s.1).1, s.2 ++ [Call.SetStatus st]), (k.SetStatus ctx act st s.1).2)
  AddOrUpdateVote := fun ctx act p v s =>
    (((k.AddOrUpdateVote ctx act p v s.1).1, s.2 ++ [Call.AddOrUpdateVote p v]),
      (k.AddOrUpdateVote ctx act p v s.1).2)
  TryExecuteVotedAction := fun ctx act s =>
    (((k.TryExecuteVotedAction ctx act s.1).1, s.2 ++ [Call.TryExecuteVotedAction act]),
      (k.TryExecuteVotedAction ctx act s.1).2)
  TryRejectVotedAction := fun ctx act s =>
    (((k.TryRejectVotedAction ctx act s.1).1, s.2 ++ [Call.TryRejectVotedAction act]),
      (k.TryRejectVotedAction ctx act s.1).2)

/-- The calls a run of the handler makes, in order. -/
def callsOf {σ : Type} (k : Keeper σ) (ctx : Context) (msg : MsgVoteForAction) (s : σ) : List Call :=
  (VoteForAction k.traced ctx msg (s, [])).1.2

/-! ## The collaborators as the specification describes them -/

/-- Modelled from the spec: the Action Store (section 2, item 3), Action
records keyed by Action ID; `ActionKeeper` is not among the sources. -/
abbrev Store := List Action

/-- Modelled from the spec: `ActionKeeper.Get`, `Get(id) -> Action | NotFound`;
with no Action there is no status to report. -/
def Store.get (s : Store) (id : Nat) : Except Error Action :=
  match s.find? (fun a => a.Id = id) with
  | some a => .ok a
  | none => .error { kind := ErrorKind.NotFound, status := none }

/-- Modelled from the spec: `ActionKeeper.Set`, which writes the record under
its own id, replacing the record stored there if there is one. -/
def Store.set : Store → Action → Store
  | [], a => [a]
  | b :: s, a => if b.Id = a.Id then a :: s else b :: Store.set s a

/-- Modelled from the spec: `Action.SetStatus`, the forced status transition
of section 4.4 ("force-transitions status to `Timeout`"): it assigns the
status and touches nothing else. -/
def Action.SetStatus (act : Action) (status : ActionStatus) : Except Error Action :=
  .ok { act with Status := status }

/-- Modelled from the spec: overwrite the entry of the same participant where
it stands, or append (section 3: re-voting overwrites, at most one live vote
per participant, insertion order preserved). -/
def upsertVote (v : ActionVote) : List ActionVote → List ActionVote
  | [] => [v]
  | w :: ws => if w.Participant = v.Participant then v :: ws else w :: upsertVote v ws

/-- Modelled from the spec: the Vote Tally `Action.AddOrUpdateVote` of section
4.3: `NotPending` unless the status is Pending, `UnknownVoteKind` for a kind
outside Approved and Rejected, otherwise the participant's vote is written
over any earlier one, cast at the current height.  The errors carry the
Action's status (section 7). -/
def Action.AddOrUpdateVote (ctx : Context) (act : Action) (participant : String)
    (voteType : ActionVoteType) : Except Error Action :=
  if act.Status ≠ ActionStatus.pending then
    .error { kind := ErrorKind.NotPending, status := some act.Status }
  else match voteType with
    | .other _ => .error { kind := ErrorKind.UnknownVoteKind, status := some act.Status }
    | _ => .ok { act with
        Votes := upsertVote
          { Participant := participant, VoteType := voteType, CastAtHeight := ctx.BlockHeight }
          act.Votes }

/-- The tally an evaluation sees: the mapping from participant to vote kind
(section 3, `votes`), in stored order. -/
def tally (votes : List ActionVote) : List (String × ActionVoteType) :=
  votes.map (fun v => (v.Participant, v.VoteType))

/-- Modelled from the spec: what the handler's evaluation step consults and
what is outside this development: the Rule Store with the Predicate Evaluator
(sections 4.1, 4.2), as the approval and the rejection condition of a rule on
a tally, or the kind of error with which the evaluation fails (section 4.4
names `UnauthorizedVoter`), and the operation dispatcher (section 4.5), as
whether all messages of an Action dispatch. -/
structure Engine where
  approval : Nat → List (String × ActionVoteType) → Except ErrorKind Bool
  rejection : Nat → List (String × ActionVoteType) → Except ErrorKind Bool
  dispatch : List String → Bool

/-- Modelled from the spec: `Keeper.TryExecuteVotedAction`, sections 4.4 and
4.5: evaluate the approval condition on the current votes; if it holds, run
the messages and persist the terminal status, `Executed` when they all
dispatch and `Rejected` when one fails; if it does not hold the Action is left
as it is; a failure of the evaluation is returned with the Action's status
(section 7). -/
def TryExecuteVotedAction (E : Engine) (act : Action) (s : Store) :
    Store × Except Error Action :=
  match E.approval act.RuleId (tally act.Votes) with
  | .error err => (s, .error { kind := err, status := some act.Status })
  | .ok false => (s, .ok act)
  | .ok true =>
    (Store.set s { act with
        Status := if E.dispatch act.Messages then ActionStatus.executed else ActionStatus.rejected },
      .ok { act with
        Status := if E.dispatch act.Messages then ActionStatus.executed else ActionStatus.rejected })

/-- Modelled from the spec: `Keeper.TryRejectVotedAction`, section 4.4:
evaluate the rejection condition on the current votes; if it holds, persist
status `Rejected`; otherwise the Action is left as it is; a failure of the
evaluation is returned with the Action's status (section 7). -/
def TryRejectVotedAction (E : Engine) (act : Action) (s : Store) :
    Store × Except Error Action :=
  match E.rejection act.RuleId (tally act.Votes) with
  | .error err => (s, .error { kind := err, status := some act.Status })
  | .ok false => (s, .ok act)
  | .ok true =>
    (Store.set s { act with Status := ActionStatus.rejected },
      .ok { act with Status := ActionStatus.rejected })

/-- The keeper whose collaborators behave as the specification describes. -/
def specKeeper (E : Engine) : Keeper Store where
  Get := fun _ id s => (s, Store.get s id)
  Set := fun _ act s => (Store.set s act, .ok ())
  SetStatus := fun _ act st s => (s, Action.SetStatus act st)
  AddOrUpdateVote := fun ctx act p v s => (s, Action.AddOrUpdateVote ctx act p v)
  TryExecuteVotedAction := fun _ act s => TryExecuteVotedAction E act s
  TryRejectVotedAction := fun _ act s => TryRejectVotedAction E act s

/-- Modelled from the spec: the surrounding transactional store of sections 1
and 5, which the handler runs in.  The handler works on the state and reads
its own writes; what it leaves becomes the state only when the call returns
successfully; when the call fails the state before the call stands ("rolled
back wholesale on transition failure", "a failing call leaves no partial
mutation"). -/
def runInTransaction {σ : Type} (k : Keeper σ) (ctx : Context) (msg : MsgVoteForAction)
    (s : σ) : σ × Except Error MsgVoteForActionResponse :=
  match VoteForAction k ctx msg s with
  | (s', .ok resp) => (s', .ok resp)
  | (_, .error err) => (s, .error err)

/-! ## Concrete data used by the closed statements -/

/-- An engine under which no condition ever holds. -/
def engineNever : Engine where
  approval := fun _ _ => .ok false
  rejection := fun _ _ => .ok false
  dispatch := fun _ => true

/-- An engine under which the approval and the rejection condition both hold. -/
def engineBoth : Engine where
  approval := fun _ _ => .ok true
  rejection := fun _ _ => .ok true
  dispatch := fun _ => true

/-- An engine whose rule admits bob as its only voter: with a vote of anyone
else in the tally the evaluation fails as `Unauthorized` (the
`UnauthorizedVoter` of section 4.4); with bob's votes alone no condition
holds. -/
def engineRestricted : Engine where
  approval := fun _ t =>
    if t.all (fun x => decide (x.1 = "bob")) then .ok false else .error ErrorKind.Unauthorized
  rejection := fun _ t =>
    if t.all (fun x => decide (x.1 = "bob")) then .ok false else .error ErrorKind.Unauthorized
  dispatch := fun _ => true

/-- A Pending Action with id 1 and deadline 5, one vote of bob. -/
def act1 : Action where
  Id := 1
  RuleId := 7
  Status := ActionStatus.pending
  Votes := [{ Participant := "bob", VoteType := ActionVoteType.rejected, CastAtHeight := 2 }]
  TimeoutHeight := 5
  Messages := ["m"]
  Creator := "carol"

/-- The same Action, already Executed. -/
def act1Executed : Action := { act1 with Status := ActionStatus.executed }

/-- The same Action, already Revoked. -/
def act1Revoked : Action := { act1 with Status := ActionStatus.revoked }

/-- The Action as a successful `AddOrUpdateVote` of the request leaves it. -/
def recordVote (ctx : Context) (act : Action) (msg : MsgVoteForAction) : Action :=
  { act with
    Votes := upsertVote
      { Participant := msg.Participant, VoteType := msg.VoteType, CastAtHeight := ctx.BlockHeight }
      act.Votes }

/-! ## The Msg service descriptor of `api/warden/act/v1beta1/tx_grpc.pb.go` -/

/-- Lines 21 to 27: the full method names of the Msg service. -/
def Msg_UpdateParams_FullMethodName : String := "/warden.act.v1beta1.Msg/UpdateParams"

def Msg_NewAction_FullMethodName : String := "/warden.act.v1beta1.Msg/NewAction"

def Msg_ApproveAction_FullMethodName : String := "/warden.act.v1beta1.Msg/ApproveAction"

def Msg_CheckAction_FullMethodName : String := "/warden.act.v1beta1.Msg/CheckAction"

def Msg_NewRule_FullMethodName : String := "/warden.act.v1beta1.Msg/NewRule"

def Msg_UpdateRule_FullMethodName : String := "/warden.act.v1beta1.Msg/UpdateRule"

def Msg_RevokeAction_FullMethodName : String := "/warden.act.v1beta1.Msg/RevokeAction"

/-- One entry of `grpc.ServiceDesc.Methods`.  Of the handler function the entry
points to, `Handler` keeps the `FullMethod` that function hands to the
interceptor (lines 193, 211, 229, 247, 265, 283, 301). -/
structure grpc.MethodDesc where
  MethodName : String
  Handler : String
  deriving DecidableEq, Repr

/-- The fields of `grpc.ServiceDesc` that the descriptor sets to a value. -/
structure grpc.ServiceDesc where
  ServiceName : String
  Methods : List grpc.MethodDesc
  Metadata : String
  deriving DecidableEq, Repr

/-- Lines 315 to 348: `Msg_ServiceDesc`. -/
def Msg_ServiceDesc : grpc.ServiceDesc where
  ServiceName := "warden.act.v1beta1.Msg"
  Methods := [
    { MethodName := "UpdateParams", Handler := Msg_UpdateParams_FullMethodName },
    { MethodName := "NewAction", Handler := Msg_NewAction_FullMethodName },
    { MethodName := "ApproveAction", Handler := Msg_ApproveAction_FullMethodName },
    { MethodName := "CheckAction", Handler := Msg_CheckAction_FullMethodName },
    { MethodName := "NewRule", Handler := Msg_NewRule_FullMethodName },
    { MethodName := "UpdateRule", Handler := Msg_UpdateRule_FullMethodName },
    { MethodName := "RevokeAction", Handler := Msg_RevokeAction_FullMethodName }]
  Metadata := "warden/act/v1beta1/tx.proto"

/-- The method names of a descriptor, in order. -/
def grpc.ServiceDesc.methodNames (d : grpc.ServiceDesc) : List String :=
  d.Methods.map (fun m => m.MethodName)

/-! ## The precompile request and response adapters of `precompiles/warden/query_types.go`

The adapters call into libraries and generated files that are not among the
sources: `abi.Arguments.Copy` of go-ethereum, the helpers of
`precompiles/common`, the `map...` functions of the package and the generated
enum tables.  They are parameters of the embedding, collected in `Env` and
`abi.Method`. -/

/-- A byte string, `[]byte`. -/
abbrev Bytes := List Nat

/-- An Ethereum address, `common.Address`. -/
structure Address where
  bytes : Bytes
  deriving DecidableEq, Repr

/-- Errors of the adapters: the struct `wardencommon.WrongArgsNumber`, the
errors built by `errors.New` and `fmt.Errorf` with their text, and
`fmt.Errorf("...: %w", err)` wrapping another error. -/
inductive PError
  | WrongArgsNumber (Expected : Nat) (Got : Nat)
  | text (message : String)
  | wrap (message : String) (cause : PError)
  deriving DecidableEq, Repr

/-- A value of type `interface{}` in an argument list: a `uint64`, or a value
of another dynamic type, of which only the type name (`%T`) is kept. -/
inductive Arg
  | uint64 (v : Nat)
  | other (goType : String)
  deriving DecidableEq, Repr

/-- The `%T` of an argument. -/
def Arg.typeName : Arg → String
  | .uint64 _ => "uint64"
  | .other t => t

/-- Of `*abi.Method` the adapters use `method.Inputs.Copy(&input, args)` only:
it fills the input struct from the argument list or fails. -/
structure abi.Method (Input : Type) where
  Inputs_Copy : List Arg → Except PError Input

/-- The page request of the Cosmos SDK, `query.PageRequest`. -/
structure query.PageRequest where
  Key : Bytes
  Offset : Nat
  Limit : Nat
  CountTotal : Bool
  Reverse : Bool
  deriving DecidableEq, Repr

/-- The page response of the Cosmos SDK, `query.PageResponse`. -/
structure query.PageResponse where
  NextKey : Bytes
  Total : Nat
  deriving DecidableEq, Repr

/-- The ABI page request `TypesPageRequest`. -/
structure TypesPageRequest where
  Key : Bytes
  Offset : Nat
  Limit : Nat
  CountTotal : Bool
  Reverse : Bool
  deriving DecidableEq, Repr

/-- The ABI page response `TypesPageResponse`, with the two fields the adapters assign. -/
structure TypesPageResponse where
  NextKey : Bytes
  Total : Nat
  deriving DecidableEq, Repr

/-- A coin of the SDK (`sdk.Coin`) and its ABI form. -/
structure Coin where
  Denom : String
  Amount : Int
  deriving DecidableEq, Repr

structure TypesCoin where
  Denom : String
  Amount : Int
  deriving DecidableEq, Repr

/-- The fees of a keychain (`types.KeychainFees`) and their ABI form. -/
structure types.KeychainFees where
  KeyReq : List Coin
  SigReq : List Coin
  deriving DecidableEq, Repr

structure TypesKeychainFees where
  KeyReq : List TypesCoin
  SigReq : List TypesCoin
  deriving DecidableEq, Repr

/-- What the adapters take from outside the file: the address helpers of
`precompiles/common`, the `map...` functions of the package, the generated
tables `KeyRequestStatus_name` and `SignRequestStatus_name` (as lookups) and
the two enum constants `mapSignRequest` compares with. -/
structure Env where
  AddressFromBech32Str : String → Except PError Address
  AddressesFromBech32StrArray : List String → Except PError (List Address)
  Bech32StrFromAddress : Address → String
  mapEthPageRequest : TypesPageRequest → query.PageRequest
  mapSdkPageResponse : query.PageResponse → TypesPageResponse
  mapSdkCoins : List Coin → List TypesCoin
  mapSdkKeychainFees : types.KeychainFees → TypesKeychainFees
  KeyRequestStatus_name : Int → Option String
  SignRequestStatus_name : Int → Option String
  SIGN_REQUEST_STATUS_FULFILLED : Int
  SIGN_REQUEST_STATUS_REJECTED : Int

/-! ### Request constructors -/

structure allKeysInput where
  PageRequest : TypesPageRequest
  DeriveAddresses : List Int
  deriving DecidableEq, Repr

structure types.QueryAllKeysRequest where
  Pagination : Option query.PageRequest
  DeriveAddresses : List Int
  deriving DecidableEq, Repr

/-- Lines 15 to 30. -/
def newAllKeysRequest (E : Env) (method : abi.Method allKeysInput) (args : List Arg) :
    Except PError types.QueryAllKeysRequest :=
  if args.length ≠ 2 then .error (PError.WrongArgsNumber 2 args.length)
  else match method.Inputs_Copy args with
    | .error err => .error (PError.wrap "error while unpacking args to allKeysInput struct: " err)
    | .ok input =>
      .ok { Pagination := some (E.mapEthPageRequest input.PageRequest),
            DeriveAddresses := input.DeriveAddresses }

structure keyByIdInput where
  Id : Nat
  DeriveAddresses : List Int
  deriving DecidableEq, Repr

structure types.QueryKeyByIdRequest where
  Id : Nat
  DeriveAddresses : List Int
  deriving DecidableEq, Repr

/-- Lines 108 to 122. -/
def newKeyByIdRequest (method : abi.Method keyByIdInput) (args : List Arg) :
    Except PError types.QueryKeyByIdRequest :=
  if args.length ≠ 2 then .error (PError.WrongArgsNumber 2 args.length)
  else match method.Inputs_Copy args with
    | .error err => .error (PError.wrap "error while unpacking args to keyByIdInput struct: " err)
    | .ok input => .ok { Id := input.Id, DeriveAddresses := input.DeriveAddresses }

structure keysBySpaceIdInput where
  PageRequest : query.PageRequest
  SpaceId : Nat
  DeriveAddresses : List Int
  deriving DecidableEq, Repr

structure types.QueryKeysBySpaceIdRequest where
  Pagination : Option query.PageRequest
  SpaceId : Nat
  DeriveAddresses : List Int
  deriving DecidableEq, Repr

/-- Lines 129 to 144. -/
def newKeysBySpaceIdRequest (method : abi.Method keysBySpaceIdInput) (args : List Arg) :
    Except PError types.QueryKeysBySpaceIdRequest :=
  if args.length ≠ 3 then .error (PError.WrongArgsNumber 3 args.length)
  else match method.Inputs_Copy args with
    | .error err =>
      .error (PError.wrap "error while unpacking args to keysBySpaceIdInput struct: " err)
    | .ok input =>
      .ok { Pagination := some input.PageRequest, SpaceId := input.SpaceId,
            DeriveAddresses := input.DeriveAddresses }

/-- The anonymous input `struct{ Id uint64 }`. -/
structure idInput where
  Id : Nat
  deriving DecidableEq, Repr

structure types.QueryKeyRequestByIdRequest where
  Id : Nat
  deriving DecidableEq, Repr

/-- Lines 152 to 165. -/
def newKeyRequestByIdRequest (method : abi.Method idInput) (args : List Arg) :
    Except PError types.QueryKeyRequestByIdRequest :=
  if args.length ≠ 1 then .error (PError.WrongArgsNumber 1 args.length)
  else match method.Inputs_Copy args with
    | .error err =>
      .error (PError.wrap "failed to unpack arguments into key request id input: " err)
    | .ok input => .ok { Id := input.Id }

structure keyRequestsInput where
  PageRequest : query.PageRequest
  KeychainId : Nat
  Status : Int
  SpaceId : Nat
  deriving DecidableEq, Repr

structure types.QueryKeyRequestsRequest where
  Pagination : Option query.PageRequest
  KeychainId : Nat
  Status : Int
  SpaceId : Nat
  deriving DecidableEq, Repr

/-- Lines 178 to 198.  `%d` of the int32 status is its decimal form. -/
def newKeyRequestsRequest (E : Env) (method : abi.Method keyRequestsInput) (args : List Arg) :
    Except PError types.QueryKeyRequestsRequest :=
  if args.length ≠ 4 then .error (PError.WrongArgsNumber 4 args.length)
  else match method.Inputs_Copy args with
    | .error err =>
      .error (PError.wrap "error while unpacking args to keyRequestsInput struct: " err)
    | .ok input =>
      match E.KeyRequestStatus_name input.Status with
      | none => .error (PError.text ("invalid Status value: " ++ toString input.Status))
      | some _ =>
        .ok { Pagination := some input.PageRequest, KeychainId := input.KeychainId,
              Status := input.Status, SpaceId := input.SpaceId }

structure types.QueryKeychainByIdRequest where
  Id : Nat
  deriving DecidableEq, Repr

/-- Lines 239 to 252. -/
def newKeychainRequest (method : abi.Method idInput) (args : List Arg) :
    Except PError types.QueryKeychainByIdRequest :=
  if args.length ≠ 1 then .error (PError.WrongArgsNumber 1 args.length)
  else match method.Inputs_Copy args with
    | .error err =>
      .error (PError.wrap "failed to unpack arguments into keychain id input: " err)
    | .ok input => .ok { Id := input.Id }

structure keychainsRequestsInput where
  PageRequest : query.PageRequest
  deriving DecidableEq, Repr

structure types.QueryKeychainsRequest where
  Pagination : Option query.PageRequest
  deriving DecidableEq, Repr

/-- Lines 265 to 278. -/
def newKeychainsRequest (method : abi.Method keychainsRequestsInput) (args : List Arg) :
    Except PError types.QueryKeychainsRequest :=
  if args.length ≠ 1 then .error (PError.WrongArgsNumber 1 args.length)
  else match method.Inputs_Copy args with
    | .error err =>
      .error (PError.wrap "error while unpacking args to keychainsRequestsInput struct: " err)
    | .ok input => .ok { Pagination := some input.PageRequest }

structure types.QuerySignRequestByIdRequest where
  Id : Nat
  deriving DecidableEq, Repr

/-- Lines 315 to 328: `args[0].(uint64)`. -/
def newSignRequestByIdRequest (args : List Arg) : Except PError types.QuerySignRequestByIdRequest :=
  match args with
  | [a] =>
    match a with
    | .uint64 id => .ok { Id := id }
    | _ => .error (PError.text ("expected uint64 for id, got " ++ a.typeName))
  | _ => .error (PError.WrongArgsNumber 1 args.length)

structure signRequestsInput where
  PageRequest : query.PageRequest
  KeychainId : Nat
  Status : Int
  deriving DecidableEq, Repr

structure types.QuerySignRequestsRequest where
  Pagination : Option query.PageRequest
  KeychainId : Nat
  Status : Int
  deriving DecidableEq, Repr

/-- Lines 375 to 394. -/
def newSignRequestsRequest (E : Env) (method : abi.Method signRequestsInput) (args : List Arg) :
    Except PError types.QuerySignRequestsRequest :=
  if args.length ≠ 3 then .error (PError.WrongArgsNumber 3 args.length)
  else match method.Inputs_Copy args with
    | .error err =>
      .error (PError.wrap "error while unpacking args to signRequestsInput struct: " err)
    | .ok input =>
      match E.SignRequestStatus_name input.Status with
      | none => .error (PError.text ("invalid Status value: " ++ toString input.Status))
      | some _ =>
        .ok { Pagination := some input.PageRequest, KeychainId := input.KeychainId,
              Status := input.Status }

structure types.QuerySpaceByIdRequest where
  Id : Nat
  deriving DecidableEq, Repr

/-- Lines 432 to 445. -/
def newSpaceByIdRequest (args : List Arg) : Except PError types.QuerySpaceByIdRequest :=
  match args with
  | [a] =>
    match a with
    | .uint64 id => .ok { Id := id }
    | _ => .error (PError.text ("expected uint64 for id, got " ++ a.typeName))
  | _ => .error (PError.WrongArgsNumber 1 args.length)

structure spacesInput where
  PageRequest : query.PageRequest
  deriving DecidableEq, Repr

structure types.QuerySpacesRequest where
  Pagination : Option query.PageRequest
  deriving DecidableEq, Repr

/-- Lines 481 to 494. -/
def newSpacesRequest (method : abi.Method spacesInput) (args : List Arg) :
    Except PError types.QuerySpacesRequest :=
  if args.length ≠ 1 then .error (PError.WrongArgsNumber 1 args.length)
  else match method.Inputs_Copy args with
    | .error err => .error (PError.wrap "error while unpacking args to spacesInput struct: " err)
    | .ok input => .ok { Pagination := some input.PageRequest }

structure spacesByOwnerInput where
  PageRequest : query.PageRequest
  Owner : Address
  deriving DecidableEq, Repr

structure types.QuerySpacesByOwnerRequest where
  Pagination : Option query.PageRequest
  Owner : String
  deriving DecidableEq, Repr

/-- Lines 530 to 544. -/
def newSpacesByOwnerRequest (E : Env) (method : abi.Method spacesByOwnerInput)
    (args : List Arg) : Except PError types.QuerySpacesByOwnerRequest :=
  if args.length ≠ 2 then .error (PError.WrongArgsNumber 2 args.length)
  else match method.Inputs_Copy args with
    | .error err => .error (PError.wrap "error while unpacking args to spacesInput struct: " err)
    | .ok input =>
      .ok { Pagination := some input.PageRequest, Owner := E.Bech32StrFromAddress input.Owner }

/-! ### Response mappers -/

/-- The loop shared by the list mappers,
`for i, k := range items { v, err := f(k); if err != nil { return nil, err }; out[i] = *v }`:
the items are mapped in order and the first error ends the call. -/
def rangeMap {α β : Type} (f : α → Except PError β) : List α → Except PError (List β)
  | [] => .ok []
  | k :: ks =>
    match f k with
    | .error err => .error err
    | .ok v =>
      match rangeMap f ks with
      | .error err => .error err
      | .ok vs => .ok (v :: vs)

/-- The conversion `[]byte(s)` of a string: its UTF-8 bytes. -/
def bytesOfString (s : String) : Bytes := s.toUTF8.toList.map (fun b => b.toNat)

/-- The key `types.Key`; the field `Type` of the source is `Type_` here. -/
structure types.Key where
  Id : Nat
  SpaceId : Nat
  KeychainId : Nat
  Type_ : Int
  PublicKey : Bytes
  ApproveTemplateId : Nat
  RejectTemplateId : Nat
  deriving DecidableEq, Repr

structure types.AddressResponse where
  Address : String
  Type_ : Int
  deriving DecidableEq, Repr

structure types.QueryKeyResponse where
  Key : types.Key
  Addresses : List types.AddressResponse
  deriving DecidableEq, Repr

structure Key where
  Id : Nat
  SpaceId : Nat
  KeychainId : Nat
  KeyType : Int
  PublicKey : Bytes
  ApproveTemplateId : Nat
  RejectTemplateId : Nat
  deriving DecidableEq, Repr

structure AddressesResponse where
  AddressValue : Address
  AddressType : Int
  deriving DecidableEq, Repr

structure KeyResponse where
  Key : Key
  Addresses : List AddressesResponse
  deriving DecidableEq, Repr

/-- Lines 37 to 70, `KeyResponse.FromResponse`; the receiver is neither read
nor written, the result is a new `KeyResponse`. -/
def KeyResponse.FromResponse (E : Env) (res : Option types.QueryKeyResponse) :
    Except PError KeyResponse :=
  match res with
  | none => .error (PError.text "received nil QueryKeyResponse")
  | some res =>
    match rangeMap (fun a : types.AddressResponse =>
        match E.AddressFromBech32Str a.Address with
        | .error err => .error err
        | .ok ethAddress => .ok { AddressValue := ethAddress, AddressType := a.Type_ })
      res.Addresses with
    | .error err => .error err
    | .ok addresses =>
      .ok { Key := { Id := res.Key.Id, SpaceId := res.Key.SpaceId,
                     KeychainId := res.Key.KeychainId, KeyType := res.Key.Type_,
                     PublicKey := res.Key.PublicKey,
                     ApproveTemplateId := res.Key.ApproveTemplateId,
                     RejectTemplateId := res.Key.RejectTemplateId },
            Addresses := addresses }

/-- The response `types.QueryKeysResponse`; a nil slice and a nil pointer are `none`. -/
structure types.QueryKeysResponse where
  Keys : Option (List types.QueryKeyResponse)
  Pagination : Option query.PageResponse
  deriving DecidableEq, Repr

structure keysOutput where
  KeysResponse : List KeyResponse
  PageResponse : TypesPageResponse
  deriving DecidableEq, Repr

/-- The value of `new(keysOutput)`. -/
def keysOutput.zero : keysOutput :=
  { KeysResponse := [], PageResponse := { NextKey := [], Total := 0 } }

/-- Lines 81 to 102, `keysOutput.FromResponse`, with its receiver `o`. -/
def keysOutput.FromResponse (E : Env) (o : keysOutput) (res : Option types.QueryKeysResponse) :
    Except PError keysOutput :=
  match res with
  | none => .error (PError.text "received nil QueryKeyResponse")
  | some res =>
    match res.Keys with
    | none => .error (PError.text "received nil QueryKeyResponse")
    | some keys =>
      match rangeMap (fun k => KeyResponse.FromResponse E (some k)) keys with
      | .error err => .error err
      | .ok keysResponse =>
        match res.Pagination with
        | some pagination =>
          .ok { o with
            KeysResponse := keysResponse,
            PageResponse := { o.PageResponse with
              Total := pagination.Total, NextKey := pagination.NextKey } }
        | none => .ok { o with KeysResponse := keysResponse }

structure types.KeyRequest where
  Id : Nat
  Creator : String
  SpaceId : Nat
  KeychainId : Nat
  KeyType : Int
  Status : Int
  RejectReason : String
  ApproveTemplateId : Nat
  RejectTemplateId : Nat
  DeductedKeychainFees : List Coin
  deriving DecidableEq, Repr

structure KeyRequest where
  Id : Nat
  Creator : Address
  SpaceId : Nat
  KeychainId : Nat
  KeyType : Int
  Status : Int
  RejectReason : String
  ApproveTemplateId : Nat
  RejectTemplateId : Nat
  DeductedKeychainFees : List TypesCoin
  deriving DecidableEq, Repr

/-- The value of `new(KeyRequest)`. -/
def KeyRequest.zero : KeyRequest :=
  { Id := 0, Creator := { bytes := [] }, SpaceId := 0, KeychainId := 0, KeyType := 0,
    Status := 0, RejectReason := "", ApproveTemplateId := 0, RejectTemplateId := 0,
    DeductedKeychainFees := [] }

/-- Lines 551 to 574, `KeyRequest.mapKeyRequest`, with its receiver `kr`. -/
def KeyRequest.mapKeyRequest (E : Env) (kr : KeyRequest) (keyRequest : types.KeyRequest) :
    Except PError KeyRequest :=
  if keyRequest.Creator = "" then .error (PError.text "keyRequest.Creator is empty")
  else match E.AddressFromBech32Str keyRequest.Creator with
    | .error err => .error err
    | .ok ethCreator =>
      .ok { kr with
        Id := keyRequest.Id,
        Creator := ethCreator,
        SpaceId := keyRequest.SpaceId,
        KeychainId := keyRequest.KeychainId,
        KeyType := keyRequest.KeyType,
        Status := keyRequest.Status,
        RejectReason := keyRequest.RejectReason,
        ApproveTemplateId := keyRequest.ApproveTemplateId,
        RejectTemplateId := keyRequest.RejectTemplateId,
        DeductedKeychainFees := E.mapSdkCoins keyRequest.DeductedKeychainFees }

/-- The response `types.QueryKeyRequestsResponse`; the elements of the slice
are taken to be non-nil pointers. -/
structure types.QueryKeyRequestsResponse where
  Pagination : Option query.PageResponse
  KeyRequests : Option (List types.KeyRequest)
  deriving DecidableEq, Repr

structure keyRequestsOutput where
  Pagination : TypesPageResponse
  KeyRequests : List KeyRequest
  deriving DecidableEq, Repr

/-- The value of `new(keyRequestsOutput)`. -/
def keyRequestsOutput.zero : keyRequestsOutput :=
  { Pagination := { NextKey := [], Total := 0 }, KeyRequests := [] }

/-- Lines 212 to 233, `keyRequestsOutput.FromResponse`, with its receiver `o`. -/
def keyRequestsOutput.FromResponse (E : Env) (o : keyRequestsOutput)
    (res : Option types.QueryKeyRequestsResponse) : Except PError keyRequestsOutput :=
  match res with
  | none => .error (PError.text "received nil QueryKeyRequestsResponse")
  | some res =>
    match res.KeyRequests with
    | none => .error (PError.text "received nil QueryKeyRequestsResponse")
    | some keyRequests =>
      match rangeMap (fun k => KeyRequest.mapKeyRequest E KeyRequest.zero k) keyRequests with
      | .error err => .error err
      | .ok mapped =>
        match res.Pagination with
        | some pagination =>
          .ok { o with KeyRequests := mapped, Pagination := E.mapSdkPageResponse pagination }
        | none => .ok { o with KeyRequests := mapped }

structure types.Keychain where
  Id : Nat
  Creator : String
  Name : String
  Admins : List String
  Writers : List String
  Fees : types.KeychainFees
  Description : String
  Url : String
  KeybaseId : Option String
  deriving DecidableEq, Repr

structure Keychain where
  Id : Nat
  Creator : Address
  Name : String
  Admins : List Address
  Writers : List Address
  Fees : TypesKeychainFees
  Description : String
  Url : String
  KeybaseId : String
  deriving DecidableEq, Repr

/-- The value of `new(Keychain)`. -/
def Keychain.zero : Keychain :=
  { Id := 0, Creator := { bytes := [] }, Name := "", Admins := [], Writers := [],
    Fees := { KeyReq := [], SigReq := [] }, Description := "", Url := "", KeybaseId := "" }

/-- Lines 576 to 608, `Keychain.mapKeychain`, with its receiver `k`; the
`KeybaseId` of the source is a pointer to a struct with a `Value`. -/
def Keychain.mapKeychain (E : Env) (k : Keychain) (keychain : types.Keychain) :
    Except PError Keychain :=
  match E.AddressFromBech32Str keychain.Creator with
  | .error err => .error err
  | .ok ethCreator =>
    match E.AddressesFromBech32StrArray keychain.Admins with
    | .error err => .error err
    | .ok ethAdmins =>
      match E.AddressesFromBech32StrArray keychain.Writers with
      | .error err => .error err
      | .ok ethWriters =>
        .ok { k with
          Id := keychain.Id,
          Creator := ethCreator,
          Name := keychain.Name,
          Admins := ethAdmins,
          Writers := ethWriters,
          Fees := E.mapSdkKeychainFees keychain.Fees,
          Description := keychain.Description,
          Url := keychain.Url,
          KeybaseId := match keychain.KeybaseId with
            | some v => v
            | none => "" }

structure types.QueryKeychainsResponse where
  Pagination : Option query.PageResponse
  Keychains : Option (List types.Keychain)
  deriving DecidableEq, Repr

structure keychainsOutput where
  Pagination : query.PageResponse
  Keychains : List Keychain
  deriving DecidableEq, Repr

/-- The value of `new(keychainsOutput)`. -/
def keychainsOutput.zero : keychainsOutput :=
  { Pagination := { NextKey := [], Total := 0 }, Keychains := [] }

/-- Lines 289 to 309, `keychainsOutput.FromResponse`, with its receiver `o`. -/
def keychainsOutput.FromResponse (E : Env) (o : keychainsOutput)
    (res : Option types.QueryKeychainsResponse) : Except PError keychainsOutput :=
  match res with
  | none => .error (PError.text "received nil QueryKeychainsResponse")
  | some res =>
    match res.Keychains with
    | none => .error (PError.text "received nil QueryKeychainsResponse")
    | some keychains =>
      match rangeMap (fun k => Keychain.mapKeychain E Keychain.zero k) keychains with
      | .error err => .error err
      | .ok mapped =>
        match res.Pagination with
        | some pagination => .ok { o with Keychains := mapped, Pagination := pagination }
        | none => .ok { o with Keychains := mapped }

/-- The oneof `SignRequest.Result`: `*types.SignRequest_SignedData` or
`*types.SignRequest_RejectReason`; the nil interface is `none` in the field. -/
inductive types.isSignRequest_Result
  | SignedData (SignedData : Bytes)
  | RejectReason (RejectReason : String)
  deriving DecidableEq, Repr

structure types.SignRequest where
  Id : Nat
  Creator : String
  KeyId : Nat
  DataForSigning : Bytes
  Status : Int
  Result : Option types.isSignRequest_Result
  EncryptionKey : Bytes
  DeductedKeychainFees : List Coin
  deriving DecidableEq, Repr

structure SignRequest where
  Id : Nat
  Creator : Address
  KeyId : Nat
  DataForSigning : Bytes
  Status : Int
  Result : Bytes
  EncryptionKey : Bytes
  DeductedKeychainFees : List TypesCoin
  deriving DecidableEq, Repr

/-- The value of `new(SignRequest)`. -/
def SignRequest.zero : SignRequest :=
  { Id := 0, Creator := { bytes := [] }, KeyId := 0, DataForSigning := [], Status := 0,
    Result := [], EncryptionKey := [], DeductedKeychainFees := [] }

/-- Lines 337 to 369, `SignRequest.mapSignRequest`, with its receiver `o`;
`signRequest` is a non-nil pointer. -/
def SignRequest.mapSignRequest (E : Env) (o : SignRequest) (signRequest : types.SignRequest) :
    Except PError SignRequest :=
  match E.AddressFromBech32Str signRequest.Creator with
  | .error err => .error err
  | .ok ethCreator =>
    let o : SignRequest := { o with
      Creator := ethCreator,
      Id := signRequest.Id,
      KeyId := signRequest.KeyId,
      DataForSigning := signRequest.DataForSigning,
      Status := signRequest.Status }
    if signRequest.Status = E.SIGN_REQUEST_STATUS_FULFILLED then
      match signRequest.Result with
      | some (.SignedData signedData) =>
        .ok { o with
          Result := signedData,
          EncryptionKey := signRequest.EncryptionKey,
          DeductedKeychainFees := E.mapSdkCoins signRequest.DeductedKeychainFees }
      | _ => .error (PError.text "unexpected result type for fulfilled sign request")
    else if signRequest.Status = E.SIGN_REQUEST_STATUS_REJECTED then
      match signRequest.Result with
      | some (.RejectReason rejectReason) =>
        .ok { o with
          Result := bytesOfString rejectReason,
          EncryptionKey := signRequest.EncryptionKey,
          DeductedKeychainFees := E.mapSdkCoins signRequest.DeductedKeychainFees }
      | _ => .error (PError.text "unexpected result type for rejected sign request")
    else
      .ok { o with
        EncryptionKey := signRequest.EncryptionKey,
        DeductedKeychainFees := E.mapSdkCoins signRequest.DeductedKeychainFees }

/-- The response `types.QuerySignRequestsResponse`; the elements of the slice
are taken to be non-nil pointers. -/
structure types.QuerySignRequestsResponse where
  SignRequests : Option (List types.SignRequest)
  Pagination : Option query.PageResponse
  deriving DecidableEq, Repr

structure signRequestsOutput where
  SignRequests : List SignRequest
  Pagination : query.PageResponse
  deriving DecidableEq, Repr

/-- The value of `new(signRequestsOutput)`. -/
def signRequestsOutput.zero : signRequestsOutput :=
  { SignRequests := [], Pagination := { NextKey := [], Total := 0 } }

/-- Lines 407 to 426, `signRequestsOutput.FromResponse`, with its receiver `o`. -/
def signRequestsOutput.FromResponse (E : Env) (o : signRequestsOutput)
    (res : Option types.QuerySignRequestsResponse) : Except PError signRequestsOutput :=
  match res with
  | none => .error (PError.text "received nil QuerySignRequestsResponse")
  | some res =>
    match res.SignRequests with
    | none => .error (PError.text "received nil QuerySignRequestsResponse")
    | some signRequests =>
      match rangeMap (fun k => SignRequest.mapSignRequest E SignRequest.zero k) signRequests with
      | .error err => .error err
      | .ok mapped =>
        match res.Pagination with
        | some pagination => .ok { o with SignRequests := mapped, Pagination := pagination }
        | none => .ok { o with SignRequests := mapped }

structure types.Space where
  Id : Nat
  Creator : String
  Owners : List String
  Nonce : Nat
  ApproveAdminTemplateId : Nat
  RejectAdminTemplateId : Nat
  ApproveSignTemplateId : Nat
  RejectSignTemplateId : Nat
  deriving DecidableEq, Repr

structure Space where
  Id : Nat
  Creator : Address
  Owners : List Address
  Nonce : Nat
  ApproveAdminTemplateId : Nat
  RejectAdminTemplateId : Nat
  ApproveSignTemplateId : Nat
  RejectSignTemplateId : Nat
  deriving DecidableEq, Repr

/-- The value of `new(Space)`. -/
def Space.zero : Space :=
  { Id := 0, Creator := { bytes := [] }, Owners := [], Nonce := 0,
    ApproveAdminTemplateId := 0, RejectAdminTemplateId := 0, ApproveSignTemplateId := 0,
    RejectSignTemplateId := 0 }

/-- Lines 454 to 475, `Space.mapSpace`, with its receiver `o`. -/
def Space.mapSpace (E : Env) (o : Space) (space : types.Space) : Except PError Space :=
  match E.AddressFromBech32Str space.Creator with
  | .error err => .error err
  | .ok ethCreator =>
    match E.AddressesFromBech32StrArray space.Owners with
    | .error err => .error err
    | .ok ethOwners =>
      .ok { o with
        Id := space.Id,
        Creator := ethCreator,
        Owners := ethOwners,
        Nonce := space.Nonce,
        ApproveAdminTemplateId := space.ApproveAdminTemplateId,
        RejectAdminTemplateId := space.RejectAdminTemplateId,
        ApproveSignTemplateId := space.ApproveSignTemplateId,
        RejectSignTemplateId := space.RejectSignTemplateId }

structure types.QuerySpacesResponse where
  Pagination : Option query.PageResponse
  Spaces : Option (List types.Space)
  deriving DecidableEq, Repr

structure spacesOutput where
  Pagination : query.PageResponse
  Spaces : List Space
  deriving DecidableEq, Repr

/-- The value of `new(spacesOutput)`. -/
def spacesOutput.zero : spacesOutput :=
  { Pagination := { NextKey := [], Total := 0 }, Spaces := [] }

/-- Lines 505 to 524, `spacesOutput.FromResponse`, with its receiver `o`. -/
def spacesOutput.FromResponse (E : Env) (o : spacesOutput)
    (res : Option types.QuerySpacesResponse) : Except PError spacesOutput :=
  match res with
  | none => .error (PError.text "received nil QuerySpacesResponse")
  | some res =>
    match res.Spaces with
    | none => .error (PError.text "received nil QuerySpacesResponse")
    | some spaces =>
      match rangeMap (fun k => Space.mapSpace E Space.zero k) spaces with
      | .error err => .error err
      | .ok mapped =>
        match res.Pagination with
        | some pagination => .ok { o with Spaces := mapped, Pagination := pagination }
        | none => .ok { o with Spaces := mapped }

/-! ### Concrete data for the adapters -/

/-- An environment for the closed statements: an address string is valid when
it is not empty, and the enum tables are those of a four-valued status
(0 unspecified, 1 pending, 2 fulfilled, 3 rejected). -/
def envSample : Env where
  AddressFromBech32Str := fun a =>
    if a = "" then .error (PError.text "empty address string is not allowed")
    else .ok { bytes := bytesOfString a }
  AddressesFromBech32StrArray := fun l =>
    rangeMap (fun a =>
      if a = "" then .error (PError.text "empty address string is not allowed")
      else .ok { bytes := bytesOfString a }) l
  Bech32StrFromAddress := fun _ => "warden1"
  mapEthPageRequest := fun p =>
    { Key := p.Key, Offset := p.Offset, Limit := p.Limit, CountTotal := p.CountTotal,
      Reverse := p.Reverse }
  mapSdkPageResponse := fun p => { NextKey := p.NextKey, Total := p.Total }
  mapSdkCoins := fun l => l.map (fun c => { Denom := c.Denom, Amount := c.Amount })
  mapSdkKeychainFees := fun f =>
    { KeyReq := f.KeyReq.map (fun c => { Denom := c.Denom, Amount := c.Amount }),
      SigReq := f.SigReq.map (fun c => { Denom := c.Denom, Amount := c.Amount }) }
  KeyRequestStatus_name := fun n =>
    if n = 0 then some "KEY_REQUEST_STATUS_UNSPECIFIED"
    else if n = 1 then some "KEY_REQUEST_STATUS_PENDING"
    else if n = 2 then some "KEY_REQUEST_STATUS_FULFILLED"
    else if n = 3 then some "KEY_REQUEST_STATUS_REJECTED"
    else none
  SignRequestStatus_name := fun n =>
    if n = 0 then some "SIGN_REQUEST_STATUS_UNSPECIFIED"
    else if n = 1 then some "SIGN_REQUEST_STATUS_PENDING"
    else if n = 2 then some "SIGN_REQUEST_STATUS_FULFILLED"
    else if n = 3 then some "SIGN_REQUEST_STATUS_REJECTED"
    else none
  SIGN_REQUEST_STATUS_FULFILLED := 2
  SIGN_REQUEST_STATUS_REJECTED := 3

/-- A `method` whose `Copy` always yields the given input. -/
def methodYielding {Input : Type} (input : Input) : abi.Method Input where
  Inputs_Copy := fun _ => .ok input

/-- A page request and two arguments of another dynamic type. -/
def pageSample : query.PageRequest :=
  { Key := [], Offset := 0, Limit := 10, CountTotal := false, Reverse := false }

/-- A fulfilled sign request with signed data. -/
def signRequestSample : types.SignRequest :=
  { Id := 4, Creator := "warden1creator", KeyId := 9, DataForSigning := [1, 2], Status := 2,
    Result := some (types.isSignRequest_Result.SignedData [7, 7]), EncryptionKey := [5],
    DeductedKeychainFees := [] }

/-! ## Facts about the modelled store and tally -/

theorem Store.get_set_same (s : Store) (a : Action) :
    Store.get (Store.set s a) a.Id = .ok a := by
  induction s with
  | nil => simp [Store.set, Store.get]
  | cons b s ih =>
    by_cases h : b.Id = a.Id
    · simp [Store.set, Store.get, h]
    · simpa [Store.set, Store.get, h] using ih

theorem Store.get_set_other (s : Store) (a : Action) (id : Nat) (h : id ≠ a.Id) :
    Store.get (Store.set s a) id = Store.get s id := by
  induction s with
  | nil =>
    have h1 : ¬ a.Id = id := fun e => h e.symm
    simp [Store.set, Store.get, h1]
  | cons b s ih =>
    by_cases hb : b.Id = a.Id
    · have h1 : ¬ a.Id = id := fun e => h e.symm
      have h2 : ¬ b.Id = id := fun e => h1 (hb ▸ e)
      simp [Store.set, Store.get, hb, h1, h2]
    · by_cases hid : b.Id = id
      · subst hid
        simp [Store.set, Store.get, hb]
      · simpa [Store.set, Store.get, hb, hid] using ih

theorem Store.get_id (s : Store) (id : Nat) (a : Action) (h : Store.get s id = .ok a) :
    a.Id = id := by
  unfold Store.get at h
  cases hf : s.find? (fun a => decide (a.Id = id)) with
  | none => simp [hf] at h
  | some b =>
    simp [hf] at h
    subst h
    simpa using List.find?_some hf

theorem uint64_of_nonneg (h : Int) (h0 : 0 ≤ h) (h1 : h < 2 ^ 63) : (uint64 h : Int) = h := by
  unfold uint64
  have h2 : h % (2 : Int) ^ 64 = h := Int.emod_eq_of_lt h0 (by omega)
  rw [h2]
  exact Int.toNat_of_nonneg h0

theorem expired_of_past (act : Action) (ctx : Context) (hH : 0 < act.TimeoutHeight)
    (hh : (act.TimeoutHeight : Int) < ctx.BlockHeight) (hr : ctx.BlockHeight < 2 ^ 63) :
    expired act ctx = true := by
  have h0 : 0 ≤ ctx.BlockHeight := by omega
  have hu := uint64_of_nonneg ctx.BlockHeight h0 hr
  have : act.TimeoutHeight < uint64 ctx.BlockHeight := by omega
  simp [expired, hH, this]

/-! ## Lazy timeout -/

/-- C1. Lazy timeout: a vote on a stored Action whose deadline `H > 0` lies
strictly below the current block height (an int64) sets the status to Timeout,
persists the Action, returns the Timeout status without error and leaves the
votes as they were; the only calls made are the lookup, the status change and
the write, so the vote is not recorded and no evaluation runs. -/
theorem lazy_timeout (E : Engine) (s : Store) (ctx : Context) (msg : MsgVoteForAction)
    (act : Action) (hget : Store.get s msg.ActionId = .ok act)
    (hH : 0 < act.TimeoutHeight) (hh : (act.TimeoutHeight : Int) < ctx.BlockHeight)
    (hr : ctx.BlockHeight < 2 ^ 63) :
    VoteForAction (specKeeper E) ctx msg s
        = (Store.set s { act with Status := ActionStatus.timeout },
           .ok { Status := "ACTION_STATUS_TIMEOUT" })
      ∧ Store.get (VoteForAction (specKeeper E) ctx msg s).1 msg.ActionId
          = .ok { act with Status := ActionStatus.timeout }
      ∧ ({ act with Status := ActionStatus.timeout } : Action).Votes = act.Votes
      ∧ callsOf (specKeeper E) ctx msg s
          = [Call.Get msg.ActionId, Call.SetStatus ActionStatus.timeout,
             Call.Set { act with Status := ActionStatus.timeout }] := by
  have hexp := expired_of_past act ctx hH hh hr
  have hid := Store.get_id s msg.ActionId act hget
  have hrun : VoteForAction (specKeeper E) ctx msg s
        = (Store.set s { act with Status := ActionStatus.timeout },
           .ok { Status := "ACTION_STATUS_TIMEOUT" }) := by
    simp [VoteForAction, specKeeper, hget, hexp, Action.SetStatus, ActionStatus.String]
  refine ⟨hrun, ?_, rfl, ?_⟩
  · rw [hrun]
    have := Store.get_set_same s { act with Status := ActionStatus.timeout }
    simpa [hid] using this
  · simp [callsOf, VoteForAction, Keeper.traced, specKeeper, hget, hexp, Action.SetStatus]

/-- Witness of `lazy_timeout`: the Pending Action `act1` (deadline 5) voted on at height 6. -/
theorem lazy_timeout_witness :
    VoteForAction (specKeeper engineNever) ⟨6⟩ ⟨1, "alice", ActionVoteType.approved⟩ [act1]
        = (Store.set [act1] { act1 with Status := ActionStatus.timeout },
           .ok { Status := "ACTION_STATUS_TIMEOUT" }) :=
  (lazy_timeout engineNever [act1] ⟨6⟩ ⟨1, "alice", ActionVoteType.approved⟩ act1
    rfl (by decide) (by decide) (by decide)).1

/-! ## Votes on an Action that is no longer Pending -/

/-- A vote on a stored Action that is not Pending and whose deadline has not
passed: `AddOrUpdateVote` refuses it, the handler returns `NotPending`, and
nothing is written or evaluated. -/
theorem late_vote_before_deadline (E : Engine) (s : Store) (ctx : Context)
    (msg : MsgVoteForAction) (act : Action) (hget : Store.get s msg.ActionId = .ok act)
    (hst : act.Status ≠ ActionStatus.pending) (hexp : expired act ctx = false) :
    VoteForAction (specKeeper E) ctx msg s
        = (s, .error { kind := ErrorKind.NotPending, status := some act.Status })
      ∧ callsOf (specKeeper E) ctx msg s
          = [Call.Get msg.ActionId, Call.AddOrUpdateVote msg.Participant msg.VoteType] := by
  constructor
  · simp [VoteForAction, specKeeper, hget, hexp, Action.AddOrUpdateVote, hst]
  · simp [callsOf, VoteForAction, Keeper.traced, specKeeper, hget, hexp,
      Action.AddOrUpdateVote, hst]

/-- C2. Monotonic status, at the input where the handler breaks it: `act1Executed`
is terminal (Executed) with deadline 5; a vote at height 6 takes the timeout
branch, which does not look at the status, and the stored status becomes
Timeout. -/
theorem executed_action_becomes_timeout :
    act1Executed.Status.isTerminal = true
      ∧ VoteForAction (specKeeper engineNever) ⟨6⟩ ⟨1, "alice", ActionVoteType.approved⟩
          [act1Executed]
        = ([{ act1Executed with Status := ActionStatus.timeout }],
           .ok { Status := "ACTION_STATUS_TIMEOUT" })
      ∧ ({ act1Executed with Status := ActionStatus.timeout } : Action).Status
          ≠ act1Executed.Status := by
  refine ⟨rfl, rfl, ?_⟩
  decide

/-- C4. Late votes, at the input where the handler accepts one: `act1Revoked`
is not Pending and has deadline 5; a vote at height 6 returns a successful
response (status Timeout) instead of `NotPending`, and the Action is written
to the store; `AddOrUpdateVote` is never reached. -/
theorem late_vote_after_deadline_succeeds :
    act1Revoked.Status ≠ ActionStatus.pending
      ∧ VoteForAction (specKeeper engineNever) ⟨6⟩ ⟨1, "alice", ActionVoteType.rejected⟩
          [act1Revoked]
        = ([{ act1Revoked with Status := ActionStatus.timeout }],
           .ok { Status := "ACTION_STATUS_TIMEOUT" })
      ∧ callsOf (specKeeper engineNever) ⟨6⟩ ⟨1, "alice", ActionVoteType.rejected⟩ [act1Revoked]
        = [Call.Get 1, Call.SetStatus ActionStatus.timeout,
           Call.Set { act1Revoked with Status := ActionStatus.timeout }] := by
  refine ⟨?_, rfl, rfl⟩
  decide

/-! ## Which condition a vote evaluates -/

/-- A vote on a stored Pending Action that has not expired: the run of the
handler after the vote is recorded, by kind of vote. -/
theorem vote_step (E : Engine) (s : Store) (ctx : Context)
    (msg : MsgVoteForAction) (act : Action) (hget : Store.get s msg.ActionId = .ok act)
    (hst : act.Status = ActionStatus.pending) (hexp : expired act ctx = false) :
    (msg.VoteType = ActionVoteType.approved →
        VoteForAction (specKeeper E) ctx msg s
          = ((TryExecuteVotedAction E (recordVote ctx act msg)
                (Store.set s (recordVote ctx act msg))).1,
             (TryExecuteVotedAction E (recordVote ctx act msg)
                (Store.set s (recordVote ctx act msg))).2.map
               (fun a => { Status := a.Status.String }))
        ∧ callsOf (specKeeper E) ctx msg s
          = [Call.Get msg.ActionId, Call.AddOrUpdateVote msg.Participant msg.VoteType,
             Call.Set (recordVote ctx act msg),
             Call.TryExecuteVotedAction (recordVote ctx act msg)]
        ∧ (E.approval act.RuleId (tally (recordVote ctx act msg).Votes) = .ok true →
            (VoteForAction (specKeeper E) ctx msg s).2
              = .ok { Status := (if E.dispatch act.Messages then ActionStatus.executed
                                  else ActionStatus.rejected).String }))
      ∧ (msg.VoteType = ActionVoteType.rejected →
        VoteForAction (specKeeper E) ctx msg s
          = ((TryRejectVotedAction E (recordVote ctx act msg)
                (Store.set s (recordVote ctx act msg))).1,
             (TryRejectVotedAction E (recordVote ctx act msg)
                (Store.set s (recordVote ctx act msg))).2.map
               (fun a => { Status := a.Status.String }))
        ∧ callsOf (specKeeper E) ctx msg s
          = [Call.Get msg.ActionId, Call.AddOrUpdateVote msg.Participant msg.VoteType,
             Call.Set (recordVote ctx act msg),
             Call.TryRejectVotedAction (recordVote ctx act msg)]
        ∧ (E.rejection act.RuleId (tally (recordVote ctx act msg).Votes) = .ok true →
            (VoteForAction (specKeeper E) ctx msg s).2
              = .ok { Status := "ACTION_STATUS_REJECTED" })) := by
  constructor
  · intro hv
    cases ha : E.approval act.RuleId (tally (upsertVote
        { Participant := msg.Participant, VoteType := ActionVoteType.approved,
          CastAtHeight := ctx.BlockHeight } act.Votes)) with
    | error e =>
      simp [callsOf, VoteForAction, Keeper.traced, specKeeper, hget, hexp,
        Action.AddOrUpdateVote, hst, hv, recordVote, TryExecuteVotedAction, ha, Except.map]
    | ok b =>
      cases b <;>
      simp [callsOf, VoteForAction, Keeper.traced, specKeeper, hget, hexp,
        Action.AddOrUpdateVote, hst, hv, recordVote, TryExecuteVotedAction, ha, Except.map]
  · intro hv
    cases ha : E.rejection act.RuleId (tally (upsertVote
        { Participant := msg.Participant, VoteType := ActionVoteType.rejected,
          CastAtHeight := ctx.BlockHeight } act.Votes)) with
    | error e =>
      simp [callsOf, VoteForAction, Keeper.traced, specKeeper, hget, hexp,
        Action.AddOrUpdateVote, hst, hv, recordVote, TryRejectVotedAction, ha, Except.map]
    | ok b =>
      cases b <;>
      simp [callsOf, VoteForAction, Keeper.traced, specKeeper, hget, hexp,
        Action.AddOrUpdateVote, hst, hv, recordVote, TryRejectVotedAction, ha, Except.map,
        ActionStatus.String]

/-- C3, as the handler has it: after a vote is recorded on a stored Pending
Action that has not expired, an Approved vote runs `TryExecuteVotedAction`
only and a Rejected vote runs `TryRejectVotedAction` only; the outcome is that
of the one step run.  So when both conditions hold, an Approved vote ends in
the execution status and a Rejected vote ends in Rejected. -/
theorem vote_runs_step_of_its_kind (E : Engine) (s : Store) (ctx : Context)
    (msg : MsgVoteForAction) (act : Action) (hget : Store.get s msg.ActionId = .ok act)
    (hst : act.Status = ActionStatus.pending) (hexp : expired act ctx = false) :
    (msg.VoteType = ActionVoteType.approved →
        VoteForAction (specKeeper E) ctx msg s
          = ((TryExecuteVotedAction E (recordVote ctx act msg)
                (Store.set s (recordVote ctx act msg))).1,
             (TryExecuteVotedAction E (recordVote ctx act msg)
                (Store.set s (recordVote ctx act msg))).2.map
               (fun a => { Status := a.Status.String }))
        ∧ callsOf (specKeeper E) ctx msg s
          = [Call.Get msg.ActionId, Call.AddOrUpdateVote msg.Participant msg.VoteType,
             Call.Set (recordVote ctx act msg),
             Call.TryExecuteVotedAction (recordVote ctx act msg)]
        ∧ (E.approval act.RuleId (tally (recordVote ctx act msg).Votes) = .ok true →
            (VoteForAction (specKeeper E) ctx msg s).2
              = .ok { Status := (if E.dispatch act.Messages then ActionStatus.executed
                                  else ActionStatus.rejected).String }))
      ∧ (msg.VoteType = ActionVoteType.rejected →
        VoteForAction (specKeeper E) ctx msg s
          = ((TryRejectVotedAction E (recordVote ctx act msg)
                (Store.set s (recordVote ctx act msg))).1,
             (TryRejectVotedAction E (recordVote ctx act msg)
                (Store.set s (recordVote ctx act msg))).2.map
               (fun a => { Status := a.Status.String }))
        ∧ callsOf (specKeeper E) ctx msg s
          = [Call.Get msg.ActionId, Call.AddOrUpdateVote msg.Participant msg.VoteType,
             Call.Set (recordVote ctx act msg),
             Call.TryRejectVotedAction (recordVote ctx act msg)]
        ∧ (E.rejection act.RuleId (tally (recordVote ctx act msg).Votes) = .ok true →
            (VoteForAction (specKeeper E) ctx msg s).2
              = .ok { Status := "ACTION_STATUS_REJECTED" })) :=
  vote_step E s ctx msg act hget hst hexp

/-- Witness of `vote_runs_step_of_its_kind`: both conditions hold and the vote
is Approved, so the Action `act1` is executed. -/
theorem vote_runs_step_of_its_kind_witness :
    (VoteForAction (specKeeper engineBoth) ⟨5⟩ ⟨1, "alice", ActionVoteType.approved⟩ [act1]).2
      = .ok { Status := "ACTION_STATUS_EXECUTED" } :=
  ((vote_runs_step_of_its_kind engineBoth [act1] ⟨5⟩ ⟨1, "alice", ActionVoteType.approved⟩ act1
    rfl rfl rfl).1 rfl).2.2 rfl

/-- C3, as stated, fails: on the Pending Action `act1` at height 5 a Rejected
vote of alice is recorded; on the updated votes the approval condition and
the rejection condition both hold, yet the Action ends Rejected, not
Executed: `TryExecuteVotedAction` is not among the calls made. -/
theorem rejected_vote_rejects_though_approval_holds :
    engineBoth.approval act1.RuleId
        (tally (recordVote ⟨5⟩ act1 ⟨1, "alice", ActionVoteType.rejected⟩).Votes) = .ok true
      ∧ engineBoth.rejection act1.RuleId
        (tally (recordVote ⟨5⟩ act1 ⟨1, "alice", ActionVoteType.rejected⟩).Votes) = .ok true
      ∧ VoteForAction (specKeeper engineBoth) ⟨5⟩ ⟨1, "alice", ActionVoteType.rejected⟩ [act1]
        = ([{ recordVote ⟨5⟩ act1 ⟨1, "alice", ActionVoteType.rejected⟩ with
                Status := ActionStatus.rejected }],
           .ok { Status := "ACTION_STATUS_REJECTED" })
      ∧ callsOf (specKeeper engineBoth) ⟨5⟩ ⟨1, "alice", ActionVoteType.rejected⟩ [act1]
        = [Call.Get 1, Call.AddOrUpdateVote "alice" ActionVoteType.rejected,
           Call.Set (recordVote ⟨5⟩ act1 ⟨1, "alice", ActionVoteType.rejected⟩),
           Call.TryRejectVotedAction (recordVote ⟨5⟩ act1 ⟨1, "alice", ActionVoteType.rejected⟩)] :=
  ⟨rfl, rfl, rfl, rfl⟩

/-! ## The expiry test -/

theorem uint64_le_of_nonneg (h : Int) (h0 : 0 ≤ h) : (uint64 h : Int) ≤ h := by
  unfold uint64
  have h1 : (0 : Int) ≤ h % (2 : Int) ^ 64 := Int.emod_nonneg _ (by norm_num)
  rw [Int.toNat_of_nonneg h1]
  omega

/-- The second call of a run whose lookup succeeds is the status change of the
timeout branch when the expiry test holds, and the Vote Tally otherwise. -/
theorem second_call {σ : Type} (k : Keeper σ) (ctx : Context) (msg : MsgVoteForAction)
    (s s' : σ) (act : Action) (hget : k.Get ctx msg.ActionId s = (s', .ok act)) :
    (callsOf k ctx msg s)[1]?
      = some (if expired act ctx then Call.SetStatus ActionStatus.timeout
              else Call.AddOrUpdateVote msg.Participant msg.VoteType) := by
  cases hexp : expired act ctx with
  | true =>
    rcases h1 : k.SetStatus ctx act ActionStatus.timeout s' with ⟨s2, e | a2⟩
    · simp [callsOf, VoteForAction, Keeper.traced, hget, hexp, h1]
    · rcases h2 : k.Set ctx a2 s2 with ⟨s3, e | u⟩ <;>
        simp [callsOf, VoteForAction, Keeper.traced, hget, hexp, h1, h2]
  | false =>
    rcases h1 : k.AddOrUpdateVote ctx act msg.Participant msg.VoteType s' with ⟨s2, e | a2⟩
    · simp [callsOf, VoteForAction, Keeper.traced, hget, hexp, h1]
    · rcases h2 : k.Set ctx a2 s2 with ⟨s3, e | u⟩
      · simp [callsOf, VoteForAction, Keeper.traced, hget, hexp, h1, h2]
      · by_cases hv : msg.VoteType = ActionVoteType.approved
        · rw [hv] at h1
          rcases h3 : k.TryExecuteVotedAction ctx a2 s3 with ⟨s4, e | a3⟩ <;>
            simp [callsOf, VoteForAction, Keeper.traced, hget, hexp, h1, h2, hv, h3]
        · by_cases hw : msg.VoteType = ActionVoteType.rejected
          · rw [hw] at h1
            rcases h3 : k.TryRejectVotedAction ctx a2 s3 with ⟨s4, e | a3⟩ <;>
              simp [callsOf, VoteForAction, Keeper.traced, hget, hexp, h1, h2, hw, h3]
          · simp [callsOf, VoteForAction, Keeper.traced, hget, hexp, h1, h2, hv, hw]

/-- C5. Whatever the collaborators do, for an Action the lookup returns the
timeout branch (status change to Timeout as second call) is taken exactly
when `timeout_height > 0` and `timeout_height < uint64(height)`, and the vote
goes to the Vote Tally (`AddOrUpdateVote` as second call) exactly otherwise;
with `timeout_height = 0` the Action is not expired at any height, and at a
height equal to `timeout_height` it is not expired either.  For a height that
is a non-negative int64 the converted height is the height itself. -/
theorem timeout_branch_iff {σ : Type} (k : Keeper σ) (ctx : Context) (msg : MsgVoteForAction)
    (s s' : σ) (act : Action) (hget : k.Get ctx msg.ActionId s = (s', .ok act)) :
    ((callsOf k ctx msg s)[1]? = some (Call.SetStatus ActionStatus.timeout)
        ↔ 0 < act.TimeoutHeight ∧ act.TimeoutHeight < uint64 ctx.BlockHeight)
      ∧ ((callsOf k ctx msg s)[1]? = some (Call.AddOrUpdateVote msg.Participant msg.VoteType)
        ↔ ¬ (0 < act.TimeoutHeight ∧ act.TimeoutHeight < uint64 ctx.BlockHeight))
      ∧ (act.TimeoutHeight = 0 →
          (callsOf k ctx msg s)[1]? = some (Call.AddOrUpdateVote msg.Participant msg.VoteType))
      ∧ ((act.TimeoutHeight : Int) = ctx.BlockHeight →
          (callsOf k ctx msg s)[1]? = some (Call.AddOrUpdateVote msg.Participant msg.VoteType))
      ∧ (0 ≤ ctx.BlockHeight → ctx.BlockHeight < 2 ^ 63 →
          ((0 < act.TimeoutHeight ∧ act.TimeoutHeight < uint64 ctx.BlockHeight)
            ↔ (0 < act.TimeoutHeight ∧ (act.TimeoutHeight : Int) < ctx.BlockHeight))) := by
  have hsec := second_call k ctx msg s s' act hget
  have hiff : expired act ctx = true
      ↔ 0 < act.TimeoutHeight ∧ act.TimeoutHeight < uint64 ctx.BlockHeight := by
    simp [expired]
  refine ⟨?_, ?_, ?_, ?_, ?_⟩
  · rw [hsec]
    by_cases hexp : expired act ctx = true
    · simp [hexp, hiff.mp hexp]
    · have hne : ¬ (0 < act.TimeoutHeight ∧ act.TimeoutHeight < uint64 ctx.BlockHeight) :=
        fun h => hexp (hiff.mpr h)
      simp only [hexp, hne, iff_false]
      simp
  · rw [hsec]
    by_cases hexp : expired act ctx = true
    · simp [hexp, hiff.mp hexp]
    · have hne : ¬ (0 < act.TimeoutHeight ∧ act.TimeoutHeight < uint64 ctx.BlockHeight) :=
        fun h => hexp (hiff.mpr h)
      simp only [hexp, hne]
      simp
  · intro h0
    have hexp : expired act ctx = false := by simp [expired, h0]
    rw [hsec, hexp]
    simp
  · intro heq
    have hle := uint64_le_of_nonneg ctx.BlockHeight (by omega)
    have hexp : expired act ctx = false := by
      have : ¬ act.TimeoutHeight < uint64 ctx.BlockHeight := by omega
      simp [expired, this]
    rw [hsec, hexp]
    simp
  · intro h0 h1
    have hu := uint64_of_nonneg ctx.BlockHeight h0 h1
    constructor
    · rintro ⟨ha, hb⟩
      exact ⟨ha, by omega⟩
    · rintro ⟨ha, hb⟩
      exact ⟨ha, by omega⟩

/-- Witness of `timeout_branch_iff`: `act1` has deadline 5 and is voted on at
height 5, so the second call is the Vote Tally. -/
theorem timeout_branch_iff_witness :
    (callsOf (specKeeper engineNever) ⟨5⟩ ⟨1, "alice", ActionVoteType.approved⟩ [act1])[1]?
      = some (Call.AddOrUpdateVote "alice" ActionVoteType.approved) :=
  (timeout_branch_iff (specKeeper engineNever) ⟨5⟩ ⟨1, "alice", ActionVoteType.approved⟩
    [act1] [act1] act1 rfl).2.2.2.1 rfl

/-! ## Failing calls -/

/-- What the handler itself leaves behind when it fails, under the modelled
collaborators: the state before the call when the lookup or
`AddOrUpdateVote` failed, and the state `ActionKeeper.Set` wrote on line 36,
with the vote recorded, when the evaluation step failed. -/
theorem handler_state_after_failure (E : Engine) (s : Store) (ctx : Context)
    (msg : MsgVoteForAction) (e : Error)
    (herr : (VoteForAction (specKeeper E) ctx msg s).2 = .error e) :
    (Store.get s msg.ActionId = .error e ∧ (VoteForAction (specKeeper E) ctx msg s).1 = s)
      ∨ (∃ act, Store.get s msg.ActionId = .ok act ∧ expired act ctx = false
            ∧ Action.AddOrUpdateVote ctx act msg.Participant msg.VoteType = .error e
            ∧ (VoteForAction (specKeeper E) ctx msg s).1 = s)
      ∨ (∃ act, Store.get s msg.ActionId = .ok act ∧ expired act ctx = false
            ∧ Action.AddOrUpdateVote ctx act msg.Participant msg.VoteType
                = .ok (recordVote ctx act msg)
            ∧ ((msg.VoteType = ActionVoteType.approved
                  ∧ (TryExecuteVotedAction E (recordVote ctx act msg)
                      (Store.set s (recordVote ctx act msg))).2 = .error e)
                ∨ (msg.VoteType = ActionVoteType.rejected
                  ∧ (TryRejectVotedAction E (recordVote ctx act msg)
                      (Store.set s (recordVote ctx act msg))).2 = .error e))
            ∧ (VoteForAction (specKeeper E) ctx msg s).1 = Store.set s (recordVote ctx act msg)) := by
  cases hget : Store.get s msg.ActionId with
  | error e' =>
    left
    simp [VoteForAction, specKeeper, hget] at herr ⊢
    exact herr
  | ok act =>
    right
    cases hexp : expired act ctx with
    | true => simp [VoteForAction, specKeeper, hget, hexp, Action.SetStatus] at herr
    | false =>
      by_cases hst : act.Status = ActionStatus.pending
      · cases hv : msg.VoteType with
        | other c =>
          left
          refine ⟨act, rfl, hexp, ?_⟩
          simp [VoteForAction, specKeeper, hget, hexp, Action.AddOrUpdateVote, hst, hv] at herr ⊢
          exact herr
        | approved =>
          right
          have h := ((vote_step E s ctx msg act hget hst hexp).1 hv).1
          rw [h] at herr
          refine ⟨act, rfl, hexp, ?_, Or.inl ⟨rfl, ?_⟩, ?_⟩
          · simp [Action.AddOrUpdateVote, hst, recordVote, hv]
          · cases hr : (TryExecuteVotedAction E (recordVote ctx act msg)
                (Store.set s (recordVote ctx act msg))).2 with
            | error e2 => simpa [hr, Except.map] using herr
            | ok a => simp [hr, Except.map] at herr
          · rw [h]
            cases ha : E.approval act.RuleId (tally (recordVote ctx act msg).Votes) with
            | error e2 => simp [TryExecuteVotedAction, recordVote] at ha ⊢; simp [ha]
            | ok b =>
              cases b <;> simp [TryExecuteVotedAction, recordVote] at ha herr ⊢ <;>
                simp [ha, Except.map] at herr ⊢
        | rejected =>
          right
          have h := ((vote_step E s ctx msg act hget hst hexp).2 hv).1
          rw [h] at herr
          refine ⟨act, rfl, hexp, ?_, Or.inr ⟨rfl, ?_⟩, ?_⟩
          · simp [Action.AddOrUpdateVote, hst, recordVote, hv]
          · cases hr : (TryRejectVotedAction E (recordVote ctx act msg)
                (Store.set s (recordVote ctx act msg))).2 with
            | error e2 => simpa [hr, Except.map] using herr
            | ok a => simp [hr, Except.map] at herr
          · rw [h]
            cases ha : E.rejection act.RuleId (tally (recordVote ctx act msg).Votes) with
            | error e2 => simp [TryRejectVotedAction, recordVote] at ha ⊢; simp [ha]
            | ok b =>
              cases b <;> simp [TryRejectVotedAction, recordVote] at ha herr ⊢ <;>
                simp [ha, Except.map] at herr ⊢
      · left
        refine ⟨act, rfl, hexp, ?_⟩
        simp [VoteForAction, specKeeper, hget, hexp, Action.AddOrUpdateVote, hst] at herr ⊢
        exact herr

/-- The handler on its own, on the Pending Action `act1` at height 5 with an
Approved vote of alice, whom the rule of `engineRestricted` does not admit:
the vote is recorded and written, then the evaluation fails; the state the
handler leaves holds alice's vote. -/
theorem handler_leaves_vote_when_evaluation_fails :
    VoteForAction (specKeeper engineRestricted) ⟨5⟩ ⟨1, "alice", ActionVoteType.approved⟩ [act1]
        = ([recordVote ⟨5⟩ act1 ⟨1, "alice", ActionVoteType.approved⟩],
           .error { kind := ErrorKind.Unauthorized, status := some ActionStatus.pending })
      ∧ callsOf (specKeeper engineRestricted) ⟨5⟩ ⟨1, "alice", ActionVoteType.approved⟩ [act1]
        = [Call.Get 1, Call.AddOrUpdateVote "alice" ActionVoteType.approved,
           Call.Set (recordVote ⟨5⟩ act1 ⟨1, "alice", ActionVoteType.approved⟩),
           Call.TryExecuteVotedAction (recordVote ⟨5⟩ act1 ⟨1, "alice", ActionVoteType.approved⟩)]
      ∧ [recordVote ⟨5⟩ act1 ⟨1, "alice", ActionVoteType.approved⟩] ≠ [act1] := by
  refine ⟨rfl, rfl, ?_⟩
  decide

/-- C6. Atomic failure: whatever the collaborators do, a call of
`VoteForAction` in its transaction that returns an error leaves the state
exactly as it was before the call, wherever the handler failed, also in
`TryExecuteVotedAction` or `TryRejectVotedAction` after the vote was recorded
and written; a call that succeeds leaves what the handler wrote.  Under the
modelled collaborators the Action read from the store after a failed call is
the Action that was there before, so the new vote is not persisted. -/
theorem atomic_failure {σ : Type} (k : Keeper σ) (E : Engine) (ctx : Context)
    (msg : MsgVoteForAction) :
    (∀ (s : σ) e, (VoteForAction k ctx msg s).2 = .error e →
        runInTransaction k ctx msg s = (s, .error e))
      ∧ (∀ (s : σ) e, (runInTransaction k ctx msg s).2 = .error e →
        (runInTransaction k ctx msg s).1 = s ∧ (VoteForAction k ctx msg s).2 = .error e)
      ∧ (∀ (s : σ) resp, (VoteForAction k ctx msg s).2 = .ok resp →
        runInTransaction k ctx msg s = VoteForAction k ctx msg s)
      ∧ (∀ (s : Store) e, (runInTransaction (specKeeper E) ctx msg s).2 = .error e →
        ∀ id, Store.get (runInTransaction (specKeeper E) ctx msg s).1 id = Store.get s id) := by
  have key : ∀ {τ : Type} (k' : Keeper τ) (s : τ) e,
      (VoteForAction k' ctx msg s).2 = .error e →
      runInTransaction k' ctx msg s = (s, .error e) := by
    intro τ k' s e h
    unfold runInTransaction
    rcases hr : VoteForAction k' ctx msg s with ⟨s', r⟩
    rw [hr] at h
    simp only at h
    subst h
    rfl
  have back : ∀ {τ : Type} (k' : Keeper τ) (s : τ) e,
      (runInTransaction k' ctx msg s).2 = .error e →
      (VoteForAction k' ctx msg s).2 = .error e := by
    intro τ k' s e h
    unfold runInTransaction at h
    rcases hr : VoteForAction k' ctx msg s with ⟨s', r⟩
    rw [hr] at h
    cases r with
    | error e' => simpa using h
    | ok resp => simp at h
  refine ⟨fun s e h => key k s e h, ?_, ?_, ?_⟩
  · intro s e h
    have h' := back k s e h
    exact ⟨by rw [key k s e h'], h'⟩
  · intro s resp h
    unfold runInTransaction
    rcases hr : VoteForAction k ctx msg s with ⟨s', r⟩
    rw [hr] at h
    simp only at h
    subst h
    rfl
  · intro s e h id
    rw [key (specKeeper E) s e (back (specKeeper E) s e h)]

/-- Witness of `atomic_failure`: the failing call of
`handler_leaves_vote_when_evaluation_fails`, run in its transaction, returns
the error and the store `[act1]` it started from. -/
theorem atomic_failure_witness :
    runInTransaction (specKeeper engineRestricted) ⟨5⟩ ⟨1, "alice", ActionVoteType.approved⟩
        [act1]
      = ([act1], .error { kind := ErrorKind.Unauthorized, status := some ActionStatus.pending }) :=
  (atomic_failure (specKeeper engineRestricted) engineRestricted ⟨5⟩
    ⟨1, "alice", ActionVoteType.approved⟩).1 [act1]
    { kind := ErrorKind.Unauthorized, status := some ActionStatus.pending } rfl

/-- C7. Unknown vote kind: on a stored Pending Action that has not expired, a
vote whose kind is neither Approved nor Rejected fails with `UnknownVoteKind`
(reported with the Action's status);
the store is as before, the stored Action (votes included) is the one that
was there, and after the Vote Tally refused the vote nothing else is called. -/
theorem unknown_vote_kind (E : Engine) (s : Store) (ctx : Context) (msg : MsgVoteForAction)
    (act : Action) (hget : Store.get s msg.ActionId = .ok act)
    (hst : act.Status = ActionStatus.pending) (hexp : expired act ctx = false)
    (hna : msg.VoteType ≠ ActionVoteType.approved)
    (hnr : msg.VoteType ≠ ActionVoteType.rejected) :
    VoteForAction (specKeeper E) ctx msg s
        = (s, .error { kind := ErrorKind.UnknownVoteKind, status := some act.Status })
      ∧ Store.get (VoteForAction (specKeeper E) ctx msg s).1 msg.ActionId = .ok act
      ∧ callsOf (specKeeper E) ctx msg s
          = [Call.Get msg.ActionId, Call.AddOrUpdateVote msg.Participant msg.VoteType] := by
  cases hv : msg.VoteType with
  | approved => exact absurd hv hna
  | rejected => exact absurd hv hnr
  | other c =>
    have hrun : VoteForAction (specKeeper E) ctx msg s
        = (s, .error { kind := ErrorKind.UnknownVoteKind, status := some act.Status }) := by
      simp [VoteForAction, specKeeper, hget, hexp, Action.AddOrUpdateVote, hst, hv]
    refine ⟨hrun, ?_, ?_⟩
    · rw [hrun]
      exact hget
    · simp [callsOf, VoteForAction, Keeper.traced, specKeeper, hget, hexp,
        Action.AddOrUpdateVote, hst, hv]

/-- Witness of `unknown_vote_kind`: a vote of kind 0 on `act1` at height 5. -/
theorem unknown_vote_kind_witness :
    VoteForAction (specKeeper engineBoth) ⟨5⟩ ⟨1, "alice", ActionVoteType.other 0⟩ [act1]
      = ([act1], .error { kind := ErrorKind.UnknownVoteKind,
                          status := some ActionStatus.pending }) :=
  (unknown_vote_kind engineBoth [act1] ⟨5⟩ ⟨1, "alice", ActionVoteType.other 0⟩ act1
    rfl rfl rfl (by decide) (by decide)).1

/-- C8. Action not found: whatever the collaborators do, when the lookup of
the Action fails the handler returns exactly the lookup's error and the state
the lookup left, and the lookup is the only call it makes: no status change,
no vote, no write, no evaluation. -/
theorem action_not_found {σ : Type} (k : Keeper σ) (ctx : Context) (msg : MsgVoteForAction)
    (s s' : σ) (e : Error) (hget : k.Get ctx msg.ActionId s = (s', .error e)) :
    VoteForAction k ctx msg s = (s', .error e)
      ∧ callsOf k ctx msg s = [Call.Get msg.ActionId] := by
  constructor
  · simp [VoteForAction, hget]
  · simp [callsOf, VoteForAction, Keeper.traced, hget]

/-- Witness of `action_not_found`: the store holds Action 1 only and the vote
names Action 9; the store is returned as it was. -/
theorem action_not_found_witness :
    VoteForAction (specKeeper engineBoth) ⟨5⟩ ⟨9, "alice", ActionVoteType.approved⟩ [act1]
        = ([act1], .error { kind := ErrorKind.NotFound, status := none })
      ∧ callsOf (specKeeper engineBoth) ⟨5⟩ ⟨9, "alice", ActionVoteType.approved⟩ [act1]
        = [Call.Get 9] :=
  action_not_found (specKeeper engineBoth) ⟨5⟩ ⟨9, "alice", ActionVoteType.approved⟩
    [act1] [act1] { kind := ErrorKind.NotFound, status := none } rfl

/-! ## The tally after a vote -/

theorem upsertVote_mem (v : ActionVote) (vs : List ActionVote) : v ∈ upsertVote v vs := by
  induction vs with
  | nil => simp [upsertVote]
  | cons w ws ih =>
    by_cases h : w.Participant = v.Participant
    · simp [upsertVote, h]
    · simp [upsertVote, h, ih]

theorem upsertVote_others (v : ActionVote) (vs : List ActionVote) :
    (upsertVote v vs).filter (fun w => decide (w.Participant ≠ v.Participant))
      = vs.filter (fun w => decide (w.Participant ≠ v.Participant)) := by
  induction vs with
  | nil => simp [upsertVote]
  | cons w ws ih =>
    by_cases h : w.Participant = v.Participant
    · simp [upsertVote, h]
    · simp [upsertVote, h, List.filter_cons]
      simpa using ih

theorem upsertVote_count (v : ActionVote) (vs : List ActionVote) :
    ((upsertVote v vs).filter (fun w => decide (w.Participant = v.Participant))).length
      = max 1 (vs.filter (fun w => decide (w.Participant = v.Participant))).length := by
  induction vs with
  | nil => simp [upsertVote]
  | cons w ws ih =>
    by_cases h : w.Participant = v.Participant
    · simp [upsertVote, h, List.filter_cons]
    · simp [upsertVote, h, List.filter_cons]
      simpa using ih

theorem tally_upsert_twice (v v' : ActionVote) (vs : List ActionVote)
    (hp : v'.Participant = v.Participant) (hk : v'.VoteType = v.VoteType) :
    tally (upsertVote v' (upsertVote v vs)) = tally (upsertVote v vs) := by
  induction vs with
  | nil => simp [upsertVote, tally, hp, hk]
  | cons w ws ih =>
    by_cases h : w.Participant = v.Participant
    · simp [upsertVote, tally, h, hp, hk]
    · have h' : ¬ w.Participant = v'.Participant := by rw [hp]; exact h
      simp only [upsertVote, h, h', if_false]
      simp only [tally, List.map_cons] at ih ⊢
      rw [ih]

/-! ## Undecided votes and re-votes -/

/-- C9. Undecided vote: on a stored Pending Action that has not expired, an
Approved or Rejected vote whose evaluation step leaves the Action and the
store as they are succeeds with status Pending; the stored Action is Pending,
holds the participant's new vote, keeps the votes of all other participants
and every other field, and no other Action of the store changes. -/
theorem undecided_vote (E : Engine) (s : Store) (ctx : Context) (msg : MsgVoteForAction)
    (act : Action) (hget : Store.get s msg.ActionId = .ok act)
    (hst : act.Status = ActionStatus.pending) (hexp : expired act ctx = false)
    (hkind : msg.VoteType = ActionVoteType.approved ∨ msg.VoteType = ActionVoteType.rejected)
    (hexec : msg.VoteType = ActionVoteType.approved →
      TryExecuteVotedAction E (recordVote ctx act msg) (Store.set s (recordVote ctx act msg))
        = (Store.set s (recordVote ctx act msg), .ok (recordVote ctx act msg)))
    (hrej : msg.VoteType = ActionVoteType.rejected →
      TryRejectVotedAction E (recordVote ctx act msg) (Store.set s (recordVote ctx act msg))
        = (Store.set s (recordVote ctx act msg), .ok (recordVote ctx act msg))) :
    VoteForAction (specKeeper E) ctx msg s
        = (Store.set s (recordVote ctx act msg), .ok { Status := "ACTION_STATUS_PENDING" })
      ∧ Store.get (VoteForAction (specKeeper E) ctx msg s).1 msg.ActionId
          = .ok (recordVote ctx act msg)
      ∧ (recordVote ctx act msg).Status = ActionStatus.pending
      ∧ ({ Participant := msg.Participant, VoteType := msg.VoteType,
            CastAtHeight := ctx.BlockHeight } : ActionVote) ∈ (recordVote ctx act msg).Votes
      ∧ (recordVote ctx act msg).Votes.filter
            (fun w => decide (w.Participant ≠ msg.Participant))
          = act.Votes.filter (fun w => decide (w.Participant ≠ msg.Participant))
      ∧ (recordVote ctx act msg).Id = act.Id
      ∧ (recordVote ctx act msg).RuleId = act.RuleId
      ∧ (recordVote ctx act msg).TimeoutHeight = act.TimeoutHeight
      ∧ (recordVote ctx act msg).Messages = act.Messages
      ∧ (recordVote ctx act msg).Creator = act.Creator
      ∧ (∀ id, id ≠ msg.ActionId →
          Store.get (VoteForAction (specKeeper E) ctx msg s).1 id = Store.get s id) := by
  have hid := Store.get_id s msg.ActionId act hget
  have hrun : VoteForAction (specKeeper E) ctx msg s
        = (Store.set s (recordVote ctx act msg), .ok { Status := "ACTION_STATUS_PENDING" }) := by
    rcases hkind with hv | hv
    · rw [((vote_step E s ctx msg act hget hst hexp).1 hv).1, hexec hv]
      simp [Except.map, recordVote, hst, ActionStatus.String]
    · rw [((vote_step E s ctx msg act hget hst hexp).2 hv).1, hrej hv]
      simp [Except.map, recordVote, hst, ActionStatus.String]
  refine ⟨hrun, ?_, ?_, ?_, ?_, rfl, rfl, rfl, rfl, rfl, ?_⟩
  · rw [hrun]
    have := Store.get_set_same s (recordVote ctx act msg)
    simpa [recordVote, hid] using this
  · simp [recordVote, hst]
  · exact upsertVote_mem _ _
  · exact upsertVote_others
      { Participant := msg.Participant, VoteType := msg.VoteType,
        CastAtHeight := ctx.BlockHeight } act.Votes
  · intro id hne
    rw [hrun]
    exact Store.get_set_other s (recordVote ctx act msg) id (by simpa [recordVote, hid] using hne)

/-- Witness of `undecided_vote`: under `engineNever` alice approves `act1` at height 5. -/
theorem undecided_vote_witness :
    VoteForAction (specKeeper engineNever) ⟨5⟩ ⟨1, "alice", ActionVoteType.approved⟩ [act1]
      = (Store.set [act1] (recordVote ⟨5⟩ act1 ⟨1, "alice", ActionVoteType.approved⟩),
         .ok { Status := "ACTION_STATUS_PENDING" }) :=
  (undecided_vote engineNever [act1] ⟨5⟩ ⟨1, "alice", ActionVoteType.approved⟩ act1
    rfl rfl rfl (Or.inl rfl) (fun _ => rfl) (fun _ => rfl)).1

/-- C10. Idempotent re-vote: let a first Approved vote of a participant on a
stored Pending Action that has not expired return status Pending.  A second
such vote, cast right after it at any height, does not fail, and the Action
it leaves in the store has the same tally (participants and kinds, in order)
as the Action the first vote left, with the participant's Approved vote in
it; if the Action had at most one vote of the participant before, it has
exactly one after. -/
theorem revote_idempotent (E : Engine) (s : Store) (ctx1 ctx2 : Context)
    (msg : MsgVoteForAction) (act : Action) (hget : Store.get s msg.ActionId = .ok act)
    (hst : act.Status = ActionStatus.pending) (hexp : expired act ctx1 = false)
    (hv : msg.VoteType = ActionVoteType.approved)
    (hfirst : (VoteForAction (specKeeper E) ctx1 msg s).2
      = .ok { Status := "ACTION_STATUS_PENDING" }) :
    Store.get (VoteForAction (specKeeper E) ctx1 msg s).1 msg.ActionId
        = .ok (recordVote ctx1 act msg)
      ∧ ∃ a2 resp,
        (VoteForAction (specKeeper E) ctx2 msg (VoteForAction (specKeeper E) ctx1 msg s).1).2
            = .ok resp
          ∧ Store.get
              (VoteForAction (specKeeper E) ctx2 msg (VoteForAction (specKeeper E) ctx1 msg s).1).1
              msg.ActionId = .ok a2
          ∧ tally a2.Votes = tally (recordVote ctx1 act msg).Votes
          ∧ (msg.Participant, ActionVoteType.approved) ∈ tally a2.Votes
          ∧ ((act.Votes.filter (fun w => decide (w.Participant = msg.Participant))).length ≤ 1 →
              (a2.Votes.filter (fun w => decide (w.Participant = msg.Participant))).length = 1) := by
  have hid := Store.get_id s msg.ActionId act hget
  have hstep := ((vote_step E s ctx1 msg act hget hst hexp).1 hv).1
  -- the first evaluation found the approval condition false
  have happ : E.approval act.RuleId (tally (recordVote ctx1 act msg).Votes) = .ok false := by
    rw [hstep] at hfirst
    cases ha : E.approval act.RuleId (tally (recordVote ctx1 act msg).Votes) with
    | error e2 =>
      simp [TryExecuteVotedAction, recordVote] at ha hfirst
      simp [ha, Except.map] at hfirst
    | ok b =>
      cases b
      · rfl
      · simp [TryExecuteVotedAction, recordVote] at ha hfirst
        simp [ha, Except.map] at hfirst
        split at hfirst <;> simp [ActionStatus.String] at hfirst
  have hs1 : (VoteForAction (specKeeper E) ctx1 msg s).1
      = Store.set s (recordVote ctx1 act msg) := by
    rw [hstep]
    have ha := happ
    simp [recordVote] at ha
    simp [TryExecuteVotedAction, recordVote, ha]
  have hget1 : Store.get (Store.set s (recordVote ctx1 act msg)) msg.ActionId
      = .ok (recordVote ctx1 act msg) := by
    have := Store.get_set_same s (recordVote ctx1 act msg)
    simpa [recordVote, hid] using this
  have hmem1 : (msg.Participant, ActionVoteType.approved)
      ∈ tally (recordVote ctx1 act msg).Votes := by
    have hm := upsertVote_mem
      { Participant := msg.Participant, VoteType := msg.VoteType,
        CastAtHeight := ctx1.BlockHeight } act.Votes
    simp only [tally, recordVote, List.mem_map]
    exact ⟨_, hm, by simp [hv]⟩
  have hcount1 := upsertVote_count
      { Participant := msg.Participant, VoteType := msg.VoteType,
        CastAtHeight := ctx1.BlockHeight } act.Votes
  rw [hs1]
  refine ⟨hget1, ?_⟩
  have hst1 : (recordVote ctx1 act msg).Status = ActionStatus.pending := by
    simp [recordVote, hst]
  cases hexp2 : expired (recordVote ctx1 act msg) ctx2 with
  | true =>
    have hrun : VoteForAction (specKeeper E) ctx2 msg (Store.set s (recordVote ctx1 act msg))
        = (Store.set (Store.set s (recordVote ctx1 act msg))
              { recordVote ctx1 act msg with Status := ActionStatus.timeout },
           .ok { Status := "ACTION_STATUS_TIMEOUT" }) := by
      simp [VoteForAction, specKeeper, hget1, hexp2, Action.SetStatus, ActionStatus.String]
    refine ⟨{ recordVote ctx1 act msg with Status := ActionStatus.timeout },
      { Status := "ACTION_STATUS_TIMEOUT" }, ?_, ?_, rfl, hmem1, ?_⟩
    · rw [hrun]
    · rw [hrun]
      have := Store.get_set_same (Store.set s (recordVote ctx1 act msg))
        { recordVote ctx1 act msg with Status := ActionStatus.timeout }
      simpa [recordVote, hid] using this
    · intro hle
      simp only [recordVote] at hcount1 ⊢
      omega
  | false =>
    have hstep2 := ((vote_step E (Store.set s (recordVote ctx1 act msg)) ctx2 msg
      (recordVote ctx1 act msg) hget1 hst1 hexp2).1 hv).1
    have htally : tally (recordVote ctx2 (recordVote ctx1 act msg) msg).Votes
        = tally (recordVote ctx1 act msg).Votes := by
      simp only [recordVote]
      exact tally_upsert_twice _ _ _ rfl rfl
    have happ2 : E.approval (recordVote ctx1 act msg).RuleId
        (tally (recordVote ctx2 (recordVote ctx1 act msg) msg).Votes) = .ok false := by
      rw [htally]
      exact happ
    have hrun : VoteForAction (specKeeper E) ctx2 msg (Store.set s (recordVote ctx1 act msg))
        = (Store.set (Store.set s (recordVote ctx1 act msg))
              (recordVote ctx2 (recordVote ctx1 act msg) msg),
           .ok { Status := "ACTION_STATUS_PENDING" }) := by
      rw [hstep2]
      have ha := happ2
      simp [recordVote] at ha
      simp [TryExecuteVotedAction, recordVote, ha, Except.map, hst, ActionStatus.String]
    refine ⟨recordVote ctx2 (recordVote ctx1 act msg) msg,
      { Status := "ACTION_STATUS_PENDING" }, ?_, ?_, htally, ?_, ?_⟩
    · rw [hrun]
    · rw [hrun]
      have := Store.get_set_same (Store.set s (recordVote ctx1 act msg))
        (recordVote ctx2 (recordVote ctx1 act msg) msg)
      simpa [recordVote, hid] using this
    · rw [htally]
      exact hmem1
    · intro hle
      have hcount2 := upsertVote_count
        { Participant := msg.Participant, VoteType := msg.VoteType,
          CastAtHeight := ctx2.BlockHeight } (recordVote ctx1 act msg).Votes
      simp only [recordVote] at hcount1 hcount2 ⊢
      omega

/-- Witness of `revote_idempotent`: under `engineNever` alice approves `act1`
at height 5 and again at height 5. -/
theorem revote_idempotent_witness :
    Store.get (VoteForAction (specKeeper engineNever) ⟨5⟩
        ⟨1, "alice", ActionVoteType.approved⟩ [act1]).1 1
      = .ok (recordVote ⟨5⟩ act1 ⟨1, "alice", ActionVoteType.approved⟩) :=
  (revote_idempotent engineNever [act1] ⟨5⟩ ⟨5⟩ ⟨1, "alice", ActionVoteType.approved⟩ act1
    rfl rfl rfl rfl rfl).1

/-! ## What a failed vote returns -/

/-- C11. Failed calls report status: whenever `VoteForAction` fails after the
Action has been loaded, the error it returns carries the status of the
loaded Action, which is also the status of the Action found in the store
after the call, together with the error kind: `NotPending` when the status
is not Pending, `UnknownVoteKind` for a Pending Action and a kind outside
Approved and Rejected, and otherwise the kind with which the evaluation step
of the vote's kind failed.  A call past the deadline does not fail. -/
theorem failed_vote_carries_status (E : Engine) (s : Store) (ctx : Context)
    (msg : MsgVoteForAction) (act : Action) (e : Error)
    (hget : Store.get s msg.ActionId = .ok act)
    (herr : (VoteForAction (specKeeper E) ctx msg s).2 = .error e) :
    e.status = some act.Status
      ∧ (∃ a, Store.get (VoteForAction (specKeeper E) ctx msg s).1 msg.ActionId = .ok a
            ∧ e.status = some a.Status)
      ∧ expired act ctx = false
      ∧ ((act.Status ≠ ActionStatus.pending ∧ e.kind = ErrorKind.NotPending)
        ∨ (act.Status = ActionStatus.pending ∧ msg.VoteType ≠ ActionVoteType.approved
            ∧ msg.VoteType ≠ ActionVoteType.rejected ∧ e.kind = ErrorKind.UnknownVoteKind)
        ∨ (act.Status = ActionStatus.pending ∧ msg.VoteType = ActionVoteType.approved
            ∧ E.approval act.RuleId (tally (recordVote ctx act msg).Votes) = .error e.kind)
        ∨ (act.Status = ActionStatus.pending ∧ msg.VoteType = ActionVoteType.rejected
            ∧ E.rejection act.RuleId (tally (recordVote ctx act msg).Votes)
                = .error e.kind)) := by
  have hid := Store.get_id s msg.ActionId act hget
  cases hexp : expired act ctx with
  | true => simp [VoteForAction, specKeeper, hget, hexp, Action.SetStatus] at herr
  | false =>
    by_cases hst : act.Status = ActionStatus.pending
    · cases hv : msg.VoteType with
      | other c =>
        have hrun : VoteForAction (specKeeper E) ctx msg s
            = (s, .error { kind := ErrorKind.UnknownVoteKind, status := some act.Status }) := by
          simp [VoteForAction, specKeeper, hget, hexp, Action.AddOrUpdateVote, hst, hv]
        rw [hrun] at herr ⊢
        simp only [Except.error.injEq] at herr
        subst herr
        exact ⟨rfl, ⟨act, hget, rfl⟩, rfl, Or.inr (Or.inl ⟨hst, by simp, by simp, rfl⟩)⟩
      | approved =>
        have h := ((vote_step E s ctx msg act hget hst hexp).1 hv).1
        cases ha : E.approval act.RuleId (tally (recordVote ctx act msg).Votes) with
        | error k2 =>
          have hrun : VoteForAction (specKeeper E) ctx msg s
              = (Store.set s (recordVote ctx act msg),
                 .error { kind := k2, status := some act.Status }) := by
            rw [h]
            have ha' := ha
            simp [recordVote] at ha'
            simp [TryExecuteVotedAction, recordVote, ha', Except.map]
          rw [hrun] at herr ⊢
          simp only [Except.error.injEq] at herr
          subst herr
          refine ⟨rfl, ⟨recordVote ctx act msg, ?_, rfl⟩, rfl,
            Or.inr (Or.inr (Or.inl ⟨hst, rfl, rfl⟩))⟩
          have := Store.get_set_same s (recordVote ctx act msg)
          simpa [recordVote, hid] using this
        | ok b =>
          rw [h] at herr
          have ha' := ha
          simp [recordVote] at ha'
          cases b <;> simp [TryExecuteVotedAction, recordVote, ha', Except.map] at herr
      | rejected =>
        have h := ((vote_step E s ctx msg act hget hst hexp).2 hv).1
        cases ha : E.rejection act.RuleId (tally (recordVote ctx act msg).Votes) with
        | error k2 =>
          have hrun : VoteForAction (specKeeper E) ctx msg s
              = (Store.set s (recordVote ctx act msg),
                 .error { kind := k2, status := some act.Status }) := by
            rw [h]
            have ha' := ha
            simp [recordVote] at ha'
            simp [TryRejectVotedAction, recordVote, ha', Except.map]
          rw [hrun] at herr ⊢
          simp only [Except.error.injEq] at herr
          subst herr
          refine ⟨rfl, ⟨recordVote ctx act msg, ?_, rfl⟩, rfl,
            Or.inr (Or.inr (Or.inr ⟨hst, rfl, rfl⟩))⟩
          have := Store.get_set_same s (recordVote ctx act msg)
          simpa [recordVote, hid] using this
        | ok b =>
          rw [h] at herr
          have ha' := ha
          simp [recordVote] at ha'
          cases b <;> simp [TryRejectVotedAction, recordVote, ha', Except.map] at herr
    · have hrun := (late_vote_before_deadline E s ctx msg act hget hst hexp).1
      rw [hrun] at herr ⊢
      simp only [Except.error.injEq] at herr
      subst herr
      exact ⟨rfl, ⟨act, hget, rfl⟩, rfl, Or.inl ⟨hst, rfl⟩⟩

/-- Witness of `failed_vote_carries_status`: a vote on the Revoked Action
`act1Revoked` at height 5 fails with `NotPending` and status Revoked. -/
theorem failed_vote_carries_status_witness :
    ({ kind := ErrorKind.NotPending, status := some ActionStatus.revoked } : Error).status
      = some act1Revoked.Status :=
  (failed_vote_carries_status engineNever [act1Revoked] ⟨5⟩
    ⟨1, "alice", ActionVoteType.approved⟩ act1Revoked
    { kind := ErrorKind.NotPending, status := some ActionStatus.revoked } rfl rfl).1

/-! ## The conversion of the block height -/

theorem uint64_of_neg (h : Int) (h0 : h < 0) (h1 : -(2 ^ 63) ≤ h) :
    (uint64 h : Int) = 2 ^ 64 + h := by
  unfold uint64
  have h2 : (0 : Int) ≤ h % (2 : Int) ^ 64 := Int.emod_nonneg _ (by norm_num)
  rw [Int.toNat_of_nonneg h2]
  omega

/-- C17. Height conversion: for a block height that is a non-negative int64
the expiry test `t > 0 && t < uint64(h)` is the integer comparison
`0 < t < h`.  For a negative int64 the converted height is `2^64 + h`: the
test holds exactly for `0 < t < 2^64 + h`, while `0 < t < h` holds for no
`t`, so every Action with such a `t` is treated as expired and the test is
no longer the integer comparison. -/
theorem height_conversion (act : Action) (ctx : Context) :
    (0 ≤ ctx.BlockHeight → ctx.BlockHeight < 2 ^ 63 →
        (expired act ctx = true
          ↔ 0 < act.TimeoutHeight ∧ (act.TimeoutHeight : Int) < ctx.BlockHeight))
      ∧ (ctx.BlockHeight < 0 → -(2 ^ 63) ≤ ctx.BlockHeight →
        (uint64 ctx.BlockHeight : Int) = 2 ^ 64 + ctx.BlockHeight
          ∧ (expired act ctx = true
              ↔ 0 < act.TimeoutHeight
                ∧ (act.TimeoutHeight : Int) < 2 ^ 64 + ctx.BlockHeight)
          ∧ ¬ (0 < act.TimeoutHeight ∧ (act.TimeoutHeight : Int) < ctx.BlockHeight)
          ∧ expired { act with TimeoutHeight := 1 } ctx = true) := by
  have hiff : expired act ctx = true
      ↔ 0 < act.TimeoutHeight ∧ act.TimeoutHeight < uint64 ctx.BlockHeight := by
    simp [expired]
  constructor
  · intro h0 h1
    have hu := uint64_of_nonneg ctx.BlockHeight h0 h1
    rw [hiff]
    constructor
    · rintro ⟨ha, hb⟩
      exact ⟨ha, by omega⟩
    · rintro ⟨ha, hb⟩
      exact ⟨ha, by omega⟩
  · intro h0 h1
    have hu := uint64_of_neg ctx.BlockHeight h0 h1
    refine ⟨hu, ?_, ?_, ?_⟩
    · rw [hiff]
      constructor
      · rintro ⟨ha, hb⟩
        exact ⟨ha, by omega⟩
      · rintro ⟨ha, hb⟩
        exact ⟨ha, by omega⟩
    · rintro ⟨ha, hb⟩
      omega
    · have : 1 < uint64 ctx.BlockHeight := by omega
      simp [expired, this]

/-- Witness of `height_conversion`: at height -1 the Action `act1` (deadline 5) is expired. -/
theorem height_conversion_witness :
    expired act1 ⟨-1⟩ = true
      ↔ 0 < act1.TimeoutHeight ∧ (act1.TimeoutHeight : Int) < 2 ^ 64 + (-1) :=
  ((height_conversion act1 ⟨-1⟩).2 (by decide) (by decide)).2.1

/-! ## The service surface -/

/-- C12, as stated, fails: the method list of `Msg_ServiceDesc` has neither a
`RejectAction` nor a `VoteForAction` method. -/
theorem service_has_no_reject_method :
    ¬ ("RejectAction" ∈ Msg_ServiceDesc.methodNames
        ∨ "VoteForAction" ∈ Msg_ServiceDesc.methodNames) := by
  decide

/-- C12, as the descriptor has it: the service `warden.act.v1beta1.Msg` lists
exactly the methods UpdateParams, NewAction, ApproveAction, CheckAction,
NewRule, UpdateRule and RevokeAction, in this order; every listed name has no
`/` and is the last path segment of the full method name its handler uses,
which is `/` followed by the service name, `/` and the method name; there is
no reject or vote method. -/
theorem service_surface :
    Msg_ServiceDesc.ServiceName = "warden.act.v1beta1.Msg"
      ∧ Msg_ServiceDesc.methodNames
          = ["UpdateParams", "NewAction", "ApproveAction", "CheckAction", "NewRule",
             "UpdateRule", "RevokeAction"]
      ∧ (∀ m ∈ Msg_ServiceDesc.Methods,
          m.Handler = "/" ++ Msg_ServiceDesc.ServiceName ++ "/" ++ m.MethodName
            ∧ '/' ∉ m.MethodName.toList)
      ∧ Msg_ServiceDesc.Methods.map (fun m => m.Handler)
          = [Msg_UpdateParams_FullMethodName, Msg_NewAction_FullMethodName,
             Msg_ApproveAction_FullMethodName, Msg_CheckAction_FullMethodName,
             Msg_NewRule_FullMethodName, Msg_UpdateRule_FullMethodName,
             Msg_RevokeAction_FullMethodName]
      ∧ "RejectAction" ∉ Msg_ServiceDesc.methodNames
      ∧ "VoteForAction" ∉ Msg_ServiceDesc.methodNames := by
  refine ⟨rfl, rfl, ?_, rfl, ?_, ?_⟩ <;> decide

/-! ## Argument counts of the request constructors -/

theorem newAllKeysRequest_count (E : Env) (method : abi.Method allKeysInput) (args : List Arg) :
    (newAllKeysRequest E method args = .error (PError.WrongArgsNumber 2 args.length) ↔ args.length ≠ 2)
      ∧ (∀ x g, newAllKeysRequest E method args = .error (PError.WrongArgsNumber x g) →
          x = 2 ∧ g = args.length ∧ args.length ≠ 2) := by
  unfold newAllKeysRequest
  by_cases h : args.length = 2
  · cases hc : method.Inputs_Copy args <;> simp [h, hc]
  · simp [h]

theorem newKeyByIdRequest_count (method : abi.Method keyByIdInput) (args : List Arg) :
    (newKeyByIdRequest method args = .error (PError.WrongArgsNumber 2 args.length) ↔ args.length ≠ 2)
      ∧ (∀ x g, newKeyByIdRequest method args = .error (PError.WrongArgsNumber x g) →
          x = 2 ∧ g = args.length ∧ args.length ≠ 2) := by
  unfold newKeyByIdRequest
  by_cases h : args.length = 2
  · cases hc : method.Inputs_Copy args <;> simp [h, hc]
  · simp [h]

theorem newKeysBySpaceIdRequest_count (method : abi.Method keysBySpaceIdInput) (args : List Arg) :
    (newKeysBySpaceIdRequest method args = .error (PError.WrongArgsNumber 3 args.length) ↔ args.length ≠ 3)
      ∧ (∀ x g, newKeysBySpaceIdRequest method args = .error (PError.WrongArgsNumber x g) →
          x = 3 ∧ g = args.length ∧ args.length ≠ 3) := by
  unfold newKeysBySpaceIdRequest
  by_cases h : args.length = 3
  · cases hc : method.Inputs_Copy args <;> simp [h, hc]
  · simp [h]

theorem newKeyRequestByIdRequest_count (method : abi.Method idInput) (args : List Arg) :
    (newKeyRequestByIdRequest method args = .error (PError.WrongArgsNumber 1 args.length) ↔ args.length ≠ 1)
      ∧ (∀ x g, newKeyRequestByIdRequest method args = .error (PError.WrongArgsNumber x g) →
          x = 1 ∧ g = args.length ∧ args.length ≠ 1) := by
  unfold newKeyRequestByIdRequest
  by_cases h : args.length = 1
  · cases hc : method.Inputs_Copy args <;> simp [h, hc]
  · simp [h]

theorem newKeyRequestsRequest_count (E : Env) (method : abi.Method keyRequestsInput) (args : List Arg) :
    (newKeyRequestsRequest E method args = .error (PError.WrongArgsNumber 4 args.length) ↔ args.length ≠ 4)
      ∧ (∀ x g, newKeyRequestsRequest E method args = .error (PError.WrongArgsNumber x g) →
          x = 4 ∧ g = args.length ∧ args.length ≠ 4) := by
  unfold newKeyRequestsRequest
  by_cases h : args.length = 4
  · cases hc : method.Inputs_Copy args with
    | error err => simp [h, hc]
    | ok input => cases hn : E.KeyRequestStatus_name input.Status <;> simp [h, hc, hn]
  · simp [h]

theorem newKeychainRequest_count (method : abi.Method idInput) (args : List Arg) :
    (newKeychainRequest method args = .error (PError.WrongArgsNumber 1 args.length) ↔ args.length ≠ 1)
      ∧ (∀ x g, newKeychainRequest method args = .error (PError.WrongArgsNumber x g) →
          x = 1 ∧ g = args.length ∧ args.length ≠ 1) := by
  unfold newKeychainRequest
  by_cases h : args.length = 1
  · cases hc : method.Inputs_Copy args <;> simp [h, hc]
  · simp [h]

theorem newKeychainsRequest_count (method : abi.Method keychainsRequestsInput) (args : List Arg) :
    (newKeychainsRequest method args = .error (PError.WrongArgsNumber 1 args.length) ↔ args.length ≠ 1)
      ∧ (∀ x g, newKeychainsRequest method args = .error (PError.WrongArgsNumber x g) →
          x = 1 ∧ g = args.length ∧ args.length ≠ 1) := by
  unfold newKeychainsRequest
  by_cases h : args.length = 1
  · cases hc : method.Inputs_Copy args <;> simp [h, hc]
  · simp [h]

theorem newSignRequestsRequest_count (E : Env) (method : abi.Method signRequestsInput) (args : List Arg) :
    (newSignRequestsRequest E method args = .error (PError.WrongArgsNumber 3 args.length) ↔ args.length ≠ 3)
      ∧ (∀ x g, newSignRequestsRequest E method args = .error (PError.WrongArgsNumber x g) →
          x = 3 ∧ g = args.length ∧ args.length ≠ 3) := by
  unfold newSignRequestsRequest
  by_cases h : args.length = 3
  · cases hc : method.Inputs_Copy args with
    | error err => simp [h, hc]
    | ok input => cases hn : E.SignRequestStatus_name input.Status <;> simp [h, hc, hn]
  · simp [h]

theorem newSpacesRequest_count (method : abi.Method spacesInput) (args : List Arg) :
    (newSpacesRequest method args = .error (PError.WrongArgsNumber 1 args.length) ↔ args.length ≠ 1)
      ∧ (∀ x g, newSpacesRequest method args = .error (PError.WrongArgsNumber x g) →
          x = 1 ∧ g = args.length ∧ args.length ≠ 1) := by
  unfold newSpacesRequest
  by_cases h : args.length = 1
  · cases hc : method.Inputs_Copy args <;> simp [h, hc]
  · simp [h]

theorem newSpacesByOwnerRequest_count (E : Env) (method : abi.Method spacesByOwnerInput) (args : List Arg) :
    (newSpacesByOwnerRequest E method args = .error (PError.WrongArgsNumber 2 args.length) ↔ args.length ≠ 2)
      ∧ (∀ x g, newSpacesByOwnerRequest E method args = .error (PError.WrongArgsNumber x g) →
          x = 2 ∧ g = args.length ∧ args.length ≠ 2) := by
  unfold newSpacesByOwnerRequest
  by_cases h : args.length = 2
  · cases hc : method.Inputs_Copy args <;> simp [h, hc]
  · simp [h]

theorem newSignRequestByIdRequest_count (args : List Arg) :
    (newSignRequestByIdRequest args = .error (PError.WrongArgsNumber 1 args.length) ↔ args.length ≠ 1)
      ∧ (∀ x g, newSignRequestByIdRequest args = .error (PError.WrongArgsNumber x g) →
          x = 1 ∧ g = args.length ∧ args.length ≠ 1) := by
  unfold newSignRequestByIdRequest
  match args with
  | [] => simp
  | [a] => cases a <;> simp
  | a :: b :: t => simp

theorem newSpaceByIdRequest_count (args : List Arg) :
    (newSpaceByIdRequest args = .error (PError.WrongArgsNumber 1 args.length) ↔ args.length ≠ 1)
      ∧ (∀ x g, newSpaceByIdRequest args = .error (PError.WrongArgsNumber x g) →
          x = 1 ∧ g = args.length ∧ args.length ≠ 1) := by
  unfold newSpaceByIdRequest
  match args with
  | [] => simp
  | [a] => cases a <;> simp
  | a :: b :: t => simp

/-- C13. Argument-count validation: each request constructor returns
`WrongArgsNumber{Expected: n, Got: len(args)}` exactly when `len(args)` differs
from its arity `n`, and returns no other `WrongArgsNumber`; `n` is 2 for
newAllKeysRequest, newKeyByIdRequest and newSpacesByOwnerRequest, 3 for
newKeysBySpaceIdRequest and newSignRequestsRequest, 4 for
newKeyRequestsRequest and 1 for the six others.  The statements hold for
every `method`, hence whatever unpacking would do: the count is checked
first. -/
theorem wrong_args_number :
    (∀ (E : Env) (method : abi.Method allKeysInput) (args : List Arg),
        (newAllKeysRequest E method args = .error (PError.WrongArgsNumber 2 args.length)
            ↔ args.length ≠ 2)
          ∧ (∀ x g, newAllKeysRequest E method args = .error (PError.WrongArgsNumber x g) →
              x = 2 ∧ g = args.length ∧ args.length ≠ 2))
      ∧ (∀ (method : abi.Method keyByIdInput) (args : List Arg),
        (newKeyByIdRequest method args = .error (PError.WrongArgsNumber 2 args.length)
            ↔ args.length ≠ 2)
          ∧ (∀ x g, newKeyByIdRequest method args = .error (PError.WrongArgsNumber x g) →
              x = 2 ∧ g = args.length ∧ args.length ≠ 2))
      ∧ (∀ (E : Env) (method : abi.Method spacesByOwnerInput) (args : List Arg),
        (newSpacesByOwnerRequest E method args = .error (PError.WrongArgsNumber 2 args.length)
            ↔ args.length ≠ 2)
          ∧ (∀ x g, newSpacesByOwnerRequest E method args = .error (PError.WrongArgsNumber x g) →
              x = 2 ∧ g = args.length ∧ args.length ≠ 2))
      ∧ (∀ (method : abi.Method keysBySpaceIdInput) (args : List Arg),
        (newKeysBySpaceIdRequest method args = .error (PError.WrongArgsNumber 3 args.length)
            ↔ args.length ≠ 3)
          ∧ (∀ x g, newKeysBySpaceIdRequest method args = .error (PError.WrongArgsNumber x g) →
              x = 3 ∧ g = args.length ∧ args.length ≠ 3))
      ∧ (∀ (E : Env) (method : abi.Method signRequestsInput) (args : List Arg),
        (newSignRequestsRequest E method args = .error (PError.WrongArgsNumber 3 args.length)
            ↔ args.length ≠ 3)
          ∧ (∀ x g, newSignRequestsRequest E method args = .error (PError.WrongArgsNumber x g) →
              x = 3 ∧ g = args.length ∧ args.length ≠ 3))
      ∧ (∀ (E : Env) (method : abi.Method keyRequestsInput) (args : List Arg),
        (newKeyRequestsRequest E method args = .error (PError.WrongArgsNumber 4 args.length)
            ↔ args.length ≠ 4)
          ∧ (∀ x g, newKeyRequestsRequest E method args = .error (PError.WrongArgsNumber x g) →
              x = 4 ∧ g = args.length ∧ args.length ≠ 4))
      ∧ (∀ (method : abi.Method idInput) (args : List Arg),
        (newKeyRequestByIdRequest method args = .error (PError.WrongArgsNumber 1 args.length)
            ↔ args.length ≠ 1)
          ∧ (∀ x g, newKeyRequestByIdRequest method args = .error (PError.WrongArgsNumber x g) →
              x = 1 ∧ g = args.length ∧ args.length ≠ 1))
      ∧ (∀ (method : abi.Method idInput) (args : List Arg),
        (newKeychainRequest method args = .error (PError.WrongArgsNumber 1 args.length)
            ↔ args.length ≠ 1)
          ∧ (∀ x g, newKeychainRequest method args = .error (PError.WrongArgsNumber x g) →
              x = 1 ∧ g = args.length ∧ args.length ≠ 1))
      ∧ (∀ (method : abi.Method keychainsRequestsInput) (args : List Arg),
        (newKeychainsRequest method args = .error (PError.WrongArgsNumber 1 args.length)
            ↔ args.length ≠ 1)
          ∧ (∀ x g, newKeychainsRequest method args = .error (PError.WrongArgsNumber x g) →
              x = 1 ∧ g = args.length ∧ args.length ≠ 1))
      ∧ (∀ (args : List Arg),
        (newSignRequestByIdRequest args = .error (PError.WrongArgsNumber 1 args.length)
            ↔ args.length ≠ 1)
          ∧ (∀ x g, newSignRequestByIdRequest args = .error (PError.WrongArgsNumber x g) →
              x = 1 ∧ g = args.length ∧ args.length ≠ 1))
      ∧ (∀ (args : List Arg),
        (newSpaceByIdRequest args = .error (PError.WrongArgsNumber 1 args.length)
            ↔ args.length ≠ 1)
          ∧ (∀ x g, newSpaceByIdRequest args = .error (PError.WrongArgsNumber x g) →
              x = 1 ∧ g = args.length ∧ args.length ≠ 1))
      ∧ (∀ (method : abi.Method spacesInput) (args : List Arg),
        (newSpacesRequest method args = .error (PError.WrongArgsNumber 1 args.length)
            ↔ args.length ≠ 1)
          ∧ (∀ x g, newSpacesRequest method args = .error (PError.WrongArgsNumber x g) →
              x = 1 ∧ g = args.length ∧ args.length ≠ 1)) :=
  ⟨fun E method args => newAllKeysRequest_count E method args,
   fun method args => newKeyByIdRequest_count method args,
   fun E method args => newSpacesByOwnerRequest_count E method args,
   fun method args => newKeysBySpaceIdRequest_count method args,
   fun E method args => newSignRequestsRequest_count E method args,
   fun E method args => newKeyRequestsRequest_count E method args,
   fun method args => newKeyRequestByIdRequest_count method args,
   fun method args => newKeychainRequest_count method args,
   fun method args => newKeychainsRequest_count method args,
   fun args => newSignRequestByIdRequest_count args,
   fun args => newSpaceByIdRequest_count args,
   fun method args => newSpacesRequest_count method args⟩

/-! ## The status filter of the list requests -/

/-- C16. Status filter validation: given four (resp. three) arguments that
unpack to `input`, newKeyRequestsRequest (resp. newSignRequestsRequest)
returns the error `invalid Status value: <status>` exactly when the status
is not a key of `KeyRequestStatus_name` (resp. `SignRequestStatus_name`);
otherwise it returns a request with the same numeric status, the same
KeychainId (and SpaceId for key requests) and the page request of the
input. -/
theorem status_filter_validation (E : Env) :
    (∀ (method : abi.Method keyRequestsInput) (args : List Arg) (input : keyRequestsInput),
        args.length = 4 → method.Inputs_Copy args = .ok input →
        (newKeyRequestsRequest E method args
              = .error (PError.text ("invalid Status value: " ++ toString input.Status))
            ↔ E.KeyRequestStatus_name input.Status = none)
          ∧ ((∃ err, newKeyRequestsRequest E method args = .error err)
            ↔ E.KeyRequestStatus_name input.Status = none)
          ∧ (E.KeyRequestStatus_name input.Status ≠ none →
              newKeyRequestsRequest E method args
                = .ok { Pagination := some input.PageRequest, KeychainId := input.KeychainId,
                        Status := input.Status, SpaceId := input.SpaceId }))
      ∧ (∀ (method : abi.Method signRequestsInput) (args : List Arg) (input : signRequestsInput),
        args.length = 3 → method.Inputs_Copy args = .ok input →
        (newSignRequestsRequest E method args
              = .error (PError.text ("invalid Status value: " ++ toString input.Status))
            ↔ E.SignRequestStatus_name input.Status = none)
          ∧ ((∃ err, newSignRequestsRequest E method args = .error err)
            ↔ E.SignRequestStatus_name input.Status = none)
          ∧ (E.SignRequestStatus_name input.Status ≠ none →
              newSignRequestsRequest E method args
                = .ok { Pagination := some input.PageRequest, KeychainId := input.KeychainId,
                        Status := input.Status })) := by
  constructor
  · intro method args input hlen hcopy
    cases hn : E.KeyRequestStatus_name input.Status <;>
      simp [newKeyRequestsRequest, hlen, hcopy, hn]
  · intro method args input hlen hcopy
    cases hn : E.SignRequestStatus_name input.Status <;>
      simp [newSignRequestsRequest, hlen, hcopy, hn]

/-- Witness of `status_filter_validation`: status 7 is not in the table of
`envSample`, so the key request filter is refused. -/
theorem status_filter_validation_witness :
    newKeyRequestsRequest envSample
        (methodYielding { PageRequest := pageSample, KeychainId := 3, Status := 7, SpaceId := 1 })
        [Arg.other "struct", Arg.uint64 3, Arg.other "int32", Arg.uint64 1]
      = .error (PError.text ("invalid Status value: " ++ toString (7 : Int))) :=
  ((status_filter_validation envSample).1
    (methodYielding { PageRequest := pageSample, KeychainId := 3, Status := 7, SpaceId := 1 })
    [Arg.other "struct", Arg.uint64 3, Arg.other "int32", Arg.uint64 1]
    { PageRequest := pageSample, KeychainId := 3, Status := 7, SpaceId := 1 } rfl rfl).1.mpr rfl

/-! ## The result of a sign request -/

/-- C15. Sign-request result mapping: let the creator of a sign request be a
valid address and let the two status constants be distinct.  If the status is
FULFILLED and the result is SignedData, `Result` is the signed data; if the
status is REJECTED and the result is RejectReason, `Result` is the bytes of
the reason; if the status is FULFILLED or REJECTED and the result is of
another variant (or absent), the mapping fails; for every other status it
succeeds and `Result` is the receiver's.  Whenever the mapping succeeds, Id,
KeyId, DataForSigning, Status and EncryptionKey are those of the sign
request and Creator is the converted address. -/
theorem sign_request_result (E : Env) (o : SignRequest) (sr : types.SignRequest)
    (addr : Address) (hcreator : E.AddressFromBech32Str sr.Creator = .ok addr)
    (hdistinct : E.SIGN_REQUEST_STATUS_FULFILLED ≠ E.SIGN_REQUEST_STATUS_REJECTED) :
    (∀ d, sr.Status = E.SIGN_REQUEST_STATUS_FULFILLED →
        sr.Result = some (types.isSignRequest_Result.SignedData d) →
        ∃ out, SignRequest.mapSignRequest E o sr = .ok out ∧ out.Result = d)
      ∧ (∀ r, sr.Status = E.SIGN_REQUEST_STATUS_REJECTED →
        sr.Result = some (types.isSignRequest_Result.RejectReason r) →
        ∃ out, SignRequest.mapSignRequest E o sr = .ok out ∧ out.Result = bytesOfString r)
      ∧ (sr.Status = E.SIGN_REQUEST_STATUS_FULFILLED →
        (∀ d, sr.Result ≠ some (types.isSignRequest_Result.SignedData d)) →
        SignRequest.mapSignRequest E o sr
          = .error (PError.text "unexpected result type for fulfilled sign request"))
      ∧ (sr.Status = E.SIGN_REQUEST_STATUS_REJECTED →
        (∀ r, sr.Result ≠ some (types.isSignRequest_Result.RejectReason r)) →
        SignRequest.mapSignRequest E o sr
          = .error (PError.text "unexpected result type for rejected sign request"))
      ∧ (sr.Status ≠ E.SIGN_REQUEST_STATUS_FULFILLED →
        sr.Status ≠ E.SIGN_REQUEST_STATUS_REJECTED →
        ∃ out, SignRequest.mapSignRequest E o sr = .ok out ∧ out.Result = o.Result)
      ∧ (∀ out, SignRequest.mapSignRequest E o sr = .ok out →
        out.Id = sr.Id ∧ out.KeyId = sr.KeyId ∧ out.DataForSigning = sr.DataForSigning
          ∧ out.Status = sr.Status ∧ out.EncryptionKey = sr.EncryptionKey
          ∧ out.Creator = addr
          ∧ out.DeductedKeychainFees = E.mapSdkCoins sr.DeductedKeychainFees) := by
  refine ⟨?_, ?_, ?_, ?_, ?_, ?_⟩
  · intro d hs hr
    simp [SignRequest.mapSignRequest, hcreator, hs, hr]
  · intro r hs hr
    have hne : ¬ E.SIGN_REQUEST_STATUS_REJECTED = E.SIGN_REQUEST_STATUS_FULFILLED :=
      fun h => hdistinct h.symm
    simp [SignRequest.mapSignRequest, hcreator, hs, hr, hne]
  · intro hs hr
    cases hres : sr.Result with
    | none => simp [SignRequest.mapSignRequest, hcreator, hs, hres]
    | some v =>
      cases v with
      | SignedData d => exact absurd hres (hr d)
      | RejectReason r => simp [SignRequest.mapSignRequest, hcreator, hs, hres]
  · intro hs hr
    have hne : ¬ E.SIGN_REQUEST_STATUS_REJECTED = E.SIGN_REQUEST_STATUS_FULFILLED :=
      fun h => hdistinct h.symm
    cases hres : sr.Result with
    | none => simp [SignRequest.mapSignRequest, hcreator, hs, hres, hne]
    | some v =>
      cases v with
      | SignedData d => simp [SignRequest.mapSignRequest, hcreator, hs, hres, hne]
      | RejectReason r => exact absurd hres (hr r)
  · intro hf hr
    simp [SignRequest.mapSignRequest, hcreator, hf, hr]
  · intro out hout
    simp only [SignRequest.mapSignRequest, hcreator] at hout
    split at hout
    · split at hout
      · cases hout; simp
      · cases hout
    · split at hout
      · split at hout
        · cases hout; simp
        · cases hout
      · cases hout; simp

/-- Witness of `sign_request_result`: the fulfilled `signRequestSample` maps
to a request whose `Result` is its signed data. -/
theorem sign_request_result_witness :
    ∃ out, SignRequest.mapSignRequest envSample SignRequest.zero signRequestSample = .ok out
      ∧ out.Result = [7, 7] :=
  (sign_request_result envSample SignRequest.zero signRequestSample
    { bytes := bytesOfString "warden1creator" } rfl (by decide)).1 [7, 7] rfl rfl

/-! ## The list mappers -/

theorem rangeMap_ok {α β : Type} (f : α → Except PError β) :
    ∀ (l : List α) (vs : List β), rangeMap f l = .ok vs →
      vs.length = l.length
        ∧ ∀ (i : Nat) k, l[i]? = some k → ∃ v, f k = .ok v ∧ vs[i]? = some v := by
  intro l
  induction l with
  | nil =>
    intro vs h
    simp [rangeMap] at h
    subst h
    simp
  | cons a as ih =>
    intro vs h
    cases hf : f a with
    | error e => simp [rangeMap, hf] at h
    | ok v =>
      cases hr : rangeMap f as with
      | error e => simp [rangeMap, hf, hr] at h
      | ok ws =>
        simp [rangeMap, hf, hr] at h
        subst h
        obtain ⟨hlen, hidx⟩ := ih ws hr
        refine ⟨by simp [hlen], ?_⟩
        intro i k hk
        cases i with
        | zero =>
          simp at hk
          subst hk
          exact ⟨v, hf, by simp⟩
        | succ j =>
          simp at hk
          obtain ⟨w, hw, hj⟩ := hidx j k hk
          exact ⟨w, hw, by simpa using hj⟩

theorem rangeMap_error {α β : Type} (f : α → Except PError β) :
    ∀ (l : List α), (∃ k ∈ l, ∃ e, f k = .error e) → ∃ e, rangeMap f l = .error e := by
  intro l
  induction l with
  | nil =>
    rintro ⟨k, hk, _⟩
    simp at hk
  | cons a as ih =>
    rintro ⟨k, hk, e, he⟩
    cases hf : f a with
    | error e2 => exact ⟨e2, by simp [rangeMap, hf]⟩
    | ok v =>
      have hin : k ∈ as := by
        rcases List.mem_cons.mp hk with h | h
        · subst h
          rw [hf] at he
          cases he
        · exact h
      obtain ⟨e3, h3⟩ := ih ⟨k, hin, e, he⟩
      exact ⟨e3, by simp [rangeMap, hf, h3]⟩

theorem rangeMap_all_ok {α β : Type} (f : α → Except PError β) :
    ∀ (l : List α), (∀ k ∈ l, ∃ v, f k = .ok v) → ∃ vs, rangeMap f l = .ok vs := by
  intro l
  induction l with
  | nil => intro _; exact ⟨[], rfl⟩
  | cons a as ih =>
    intro h
    obtain ⟨v, hv⟩ := h a (List.mem_cons_self a as)
    obtain ⟨vs, hvs⟩ := ih (fun k hk => h k (List.mem_cons_of_mem a hk))
    exact ⟨v :: vs, by simp [rangeMap, hv, hvs]⟩

/-- `keysOutput.FromResponse` on a response with a list: the loop, then the page. -/
theorem keysOutput_run (E : Env) (o : keysOutput) (ks : List types.QueryKeyResponse)
    (p : Option query.PageResponse) :
    keysOutput.FromResponse E o (some { Keys := some ks, Pagination := p })
      = match rangeMap (fun k => KeyResponse.FromResponse E (some k)) ks with
        | .error err => .error err
        | .ok mapped =>
          .ok { KeysResponse := mapped,
                PageResponse := match p with
                  | some pg => { NextKey := pg.NextKey, Total := pg.Total }
                  | none => o.PageResponse } := by
  cases hr : rangeMap (fun k => KeyResponse.FromResponse E (some k)) ks with
  | error e => simp [keysOutput.FromResponse, hr]
  | ok m => cases p <;> simp [keysOutput.FromResponse, hr]

/-- `keyRequestsOutput.FromResponse` on a response with a list: the loop, then the page. -/
theorem keyRequestsOutput_run (E : Env) (o : keyRequestsOutput) (ks : List types.KeyRequest)
    (p : Option query.PageResponse) :
    keyRequestsOutput.FromResponse E o (some { Pagination := p, KeyRequests := some ks })
      = match rangeMap (fun k => KeyRequest.mapKeyRequest E KeyRequest.zero k) ks with
        | .error err => .error err
        | .ok mapped =>
          .ok { KeyRequests := mapped,
                Pagination := match p with
                  | some pg => E.mapSdkPageResponse pg
                  | none => o.Pagination } := by
  cases hr : rangeMap (fun k => KeyRequest.mapKeyRequest E KeyRequest.zero k) ks with
  | error e => simp [keyRequestsOutput.FromResponse, hr]
  | ok m => cases p <;> simp [keyRequestsOutput.FromResponse, hr]

/-- `keychainsOutput.FromResponse` on a response with a list: the loop, then the page. -/
theorem keychainsOutput_run (E : Env) (o : keychainsOutput) (ks : List types.Keychain)
    (p : Option query.PageResponse) :
    keychainsOutput.FromResponse E o (some { Pagination := p, Keychains := some ks })
      = match rangeMap (fun k => Keychain.mapKeychain E Keychain.zero k) ks with
        | .error err => .error err
        | .ok mapped =>
          .ok { Keychains := mapped,
                Pagination := match p with
                  | some pg => pg
                  | none => o.Pagination } := by
  cases hr : rangeMap (fun k => Keychain.mapKeychain E Keychain.zero k) ks with
  | error e => simp [keychainsOutput.FromResponse, hr]
  | ok m => cases p <;> simp [keychainsOutput.FromResponse, hr]

/-- `signRequestsOutput.FromResponse` on a response with a list: the loop, then the page. -/
theorem signRequestsOutput_run (E : Env) (o : signRequestsOutput) (ks : List types.SignRequest)
    (p : Option query.PageResponse) :
    signRequestsOutput.FromResponse E o (some { SignRequests := some ks, Pagination := p })
      = match rangeMap (fun k => SignRequest.mapSignRequest E SignRequest.zero k) ks with
        | .error err => .error err
        | .ok mapped =>
          .ok { SignRequests := mapped,
                Pagination := match p with
                  | some pg => pg
                  | none => o.Pagination } := by
  cases hr : rangeMap (fun k => SignRequest.mapSignRequest E SignRequest.zero k) ks with
  | error e => simp [signRequestsOutput.FromResponse, hr]
  | ok m => cases p <;> simp [signRequestsOutput.FromResponse, hr]

/-- `spacesOutput.FromResponse` on a response with a list: the loop, then the page. -/
theorem spacesOutput_run (E : Env) (o : spacesOutput) (ks : List types.Space)
    (p : Option query.PageResponse) :
    spacesOutput.FromResponse E o (some { Pagination := p, Spaces := some ks })
      = match rangeMap (fun k => Space.mapSpace E Space.zero k) ks with
        | .error err => .error err
        | .ok mapped =>
          .ok { Spaces := mapped,
                Pagination := match p with
                  | some pg => pg
                  | none => o.Pagination } := by
  cases hr : rangeMap (fun k => Space.mapSpace E Space.zero k) ks with
  | error e => simp [spacesOutput.FromResponse, hr]
  | ok m => cases p <;> simp [spacesOutput.FromResponse, hr]

/-- C14. List response mapping: for keysOutput, keyRequestsOutput,
keychainsOutput, signRequestsOutput and spacesOutput alike, `FromResponse`
fails on a nil response and on a nil item list, and fails when the mapping
of some item fails; when every item maps it succeeds.  On success the output
list has the length of the input list and its i-th element is the mapping of
the i-th item; the pagination is the copy of the response's pagination when
that is not nil, and otherwise the one the receiver had, which is the zero
value for a new output. -/
theorem list_response_mapping (E : Env) :
    ((∀ o, keysOutput.FromResponse E o none = .error (PError.text "received nil QueryKeyResponse"))
      ∧ (∀ o p, keysOutput.FromResponse E o (some { Keys := none, Pagination := p })
          = .error (PError.text "received nil QueryKeyResponse"))
      ∧ (∀ o (ks : List types.QueryKeyResponse) p, (∃ k ∈ ks, ∃ e, KeyResponse.FromResponse E (some k) = .error e) →
          ∃ e, keysOutput.FromResponse E o (some { Keys := some ks, Pagination := p }) = .error e)
      ∧ (∀ o (ks : List types.QueryKeyResponse) p, (∀ k ∈ ks, ∃ v, KeyResponse.FromResponse E (some k) = .ok v) →
          ∃ out, keysOutput.FromResponse E o (some { Keys := some ks, Pagination := p }) = .ok out)
      ∧ (∀ o (ks : List types.QueryKeyResponse) p out,
          keysOutput.FromResponse E o (some { Keys := some ks, Pagination := p }) = .ok out →
          out.KeysResponse.length = ks.length
            ∧ (∀ (i : Nat) k, ks[i]? = some k →
                ∃ v, KeyResponse.FromResponse E (some k) = .ok v ∧ out.KeysResponse[i]? = some v)
            ∧ (∀ pg, p = some pg → out.PageResponse = { NextKey := pg.NextKey, Total := pg.Total })
            ∧ (p = none → out.PageResponse = o.PageResponse)
            ∧ (p = none → o = keysOutput.zero → out.PageResponse = { NextKey := [], Total := 0 })))
    ∧ ((∀ o, keyRequestsOutput.FromResponse E o none = .error (PError.text "received nil QueryKeyRequestsResponse"))
      ∧ (∀ o p, keyRequestsOutput.FromResponse E o (some { Pagination := p, KeyRequests := none })
          = .error (PError.text "received nil QueryKeyRequestsResponse"))
      ∧ (∀ o (ks : List types.KeyRequest) p, (∃ k ∈ ks, ∃ e, KeyRequest.mapKeyRequest E KeyRequest.zero k = .error e) →
          ∃ e, keyRequestsOutput.FromResponse E o (some { Pagination := p, KeyRequests := some ks }) = .error e)
      ∧ (∀ o (ks : List types.KeyRequest) p, (∀ k ∈ ks, ∃ v, KeyRequest.mapKeyRequest E KeyRequest.zero k = .ok v) →
          ∃ out, keyRequestsOutput.FromResponse E o (some { Pagination := p, KeyRequests := some ks }) = .ok out)
      ∧ (∀ o (ks : List types.KeyRequest) p out,
          keyRequestsOutput.FromResponse E o (some { Pagination := p, KeyRequests := some ks }) = .ok out →
          out.KeyRequests.length = ks.length
            ∧ (∀ (i : Nat) k, ks[i]? = some k →
                ∃ v, KeyRequest.mapKeyRequest E KeyRequest.zero k = .ok v ∧ out.KeyRequests[i]? = some v)
            ∧ (∀ pg, p = some pg → out.Pagination = E.mapSdkPageResponse pg)
            ∧ (p = none → out.Pagination = o.Pagination)
            ∧ (p = none → o = keyRequestsOutput.zero → out.Pagination = { NextKey := [], Total := 0 })))
    ∧ ((∀ o, keychainsOutput.FromResponse E o none = .error (PError.text "received nil QueryKeychainsResponse"))
      ∧ (∀ o p, keychainsOutput.FromResponse E o (some { Pagination := p, Keychains := none })
          = .error (PError.text "received nil QueryKeychainsResponse"))
      ∧ (∀ o (ks : List types.Keychain) p, (∃ k ∈ ks, ∃ e, Keychain.mapKeychain E Keychain.zero k = .error e) →
          ∃ e, keychainsOutput.FromResponse E o (some { Pagination := p, Keychains := some ks }) = .error e)
      ∧ (∀ o (ks : List types.Keychain) p, (∀ k ∈ ks, ∃ v, Keychain.mapKeychain E Keychain.zero k = .ok v) →
          ∃ out, keychainsOutput.FromResponse E o (some { Pagination := p, Keychains := some ks }) = .ok out)
      ∧ (∀ o (ks : List types.Keychain) p out,
          keychainsOutput.FromResponse E o (some { Pagination := p, Keychains := some ks }) = .ok out →
          out.Keychains.length = ks.length
            ∧ (∀ (i : Nat) k, ks[i]? = some k →
                ∃ v, Keychain.mapKeychain E Keychain.zero k = .ok v ∧ out.Keychains[i]? = some v)
            ∧ (∀ pg, p = some pg → out.Pagination = pg)
            ∧ (p = none → out.Pagination = o.Pagination)
            ∧ (p = none → o = keychainsOutput.zero → out.Pagination = { NextKey := [], Total := 0 })))
    ∧ ((∀ o, signRequestsOutput.FromResponse E o none = .error (PError.text "received nil QuerySignRequestsResponse"))
      ∧ (∀ o p, signRequestsOutput.FromResponse E o (some { SignRequests := none, Pagination := p })
          = .error (PError.text "received nil QuerySignRequestsResponse"))
      ∧ (∀ o (ks : List types.SignRequest) p, (∃ k ∈ ks, ∃ e, SignRequest.mapSignRequest E SignRequest.zero k = .error e) →
          ∃ e, signRequestsOutput.FromResponse E o (some { SignRequests := some ks, Pagination := p }) = .error e)
      ∧ (∀ o (ks : List types.SignRequest) p, (∀ k ∈ ks, ∃ v, SignRequest.mapSignRequest E SignRequest.zero k = .ok v) →
          ∃ out, signRequestsOutput.FromResponse E o (some { SignRequests := some ks, Pagination := p }) = .ok out)
      ∧ (∀ o (ks : List types.SignRequest) p out,
          signRequestsOutput.FromResponse E o (some { SignRequests := some ks, Pagination := p }) = .ok out →
          out.SignRequests.length = ks.length
            ∧ (∀ (i : Nat) k, ks[i]? = some k →
                ∃ v, SignRequest.mapSignRequest E SignRequest.zero k = .ok v ∧ out.SignRequests[i]? = some v)
            ∧ (∀ pg, p = some pg → out.Pagination = pg)
            ∧ (p = none → out.Pagination = o.Pagination)
            ∧ (p = none → o = signRequestsOutput.zero → out.Pagination = { NextKey := [], Total := 0 })))
    ∧ ((∀ o, spacesOutput.FromResponse E o none = .error (PError.text "received nil QuerySpacesResponse"))
      ∧ (∀ o p, spacesOutput.FromResponse E o (some { Pagination := p, Spaces := none })
          = .error (PError.text "received nil QuerySpacesResponse"))
      ∧ (∀ o (ks : List types.Space) p, (∃ k ∈ ks, ∃ e, Space.mapSpace E Space.zero k = .error e) →
          ∃ e, spacesOutput.FromResponse E o (some { Pagination := p, Spaces := some ks }) = .error e)
      ∧ (∀ o (ks : List types.Space) p, (∀ k ∈ ks, ∃ v, Space.mapSpace E Space.zero k = .ok v) →
          ∃ out, spacesOutput.FromResponse E o (some { Pagination := p, Spaces := some ks }) = .ok out)
      ∧ (∀ o (ks : List types.Space) p out,
          spacesOutput.FromResponse E o (some { Pagination := p, Spaces := some ks }) = .ok out →
          out.Spaces.length = ks.length
            ∧ (∀ (i : Nat) k, ks[i]? = some k →
                ∃ v, Space.mapSpace E Space.zero k = .ok v ∧ out.Spaces[i]? = some v)
            ∧ (∀ pg, p = some pg → out.Pagination = pg)
            ∧ (p = none → out.Pagination = o.Pagination)
            ∧ (p = none → o = spacesOutput.zero → out.Pagination = { NextKey := [], Total := 0 }))) := by
  refine ⟨?_, ?_, ?_, ?_, ?_⟩
  · refine ⟨fun o => rfl, fun o p => rfl, ?_, ?_, ?_⟩
    · intro o ks p hfail
      obtain ⟨e, he⟩ := rangeMap_error (fun k => KeyResponse.FromResponse E (some k)) ks hfail
      exact ⟨e, by rw [keysOutput_run, he]⟩
    · intro o ks p hall
      obtain ⟨vs, hvs⟩ := rangeMap_all_ok (fun k => KeyResponse.FromResponse E (some k)) ks hall
      exact ⟨_, by rw [keysOutput_run, hvs]⟩
    · intro o ks p out hout
      rw [keysOutput_run] at hout
      cases hr : rangeMap (fun k => KeyResponse.FromResponse E (some k)) ks with
      | error e => simp [hr] at hout
      | ok m =>
        simp only [hr, Except.ok.injEq] at hout
        subst hout
        obtain ⟨hlen, hidx⟩ := rangeMap_ok (fun k => KeyResponse.FromResponse E (some k)) ks m hr
        refine ⟨hlen, hidx, ?_, ?_, ?_⟩
        · intro pg hp
          subst hp
          rfl
        · intro hp
          subst hp
          rfl
        · intro hp ho
          subst hp
          subst ho
          rfl
  · refine ⟨fun o => rfl, fun o p => rfl, ?_, ?_, ?_⟩
    · intro o ks p hfail
      obtain ⟨e, he⟩ := rangeMap_error (fun k => KeyRequest.mapKeyRequest E KeyRequest.zero k) ks hfail
      exact ⟨e, by rw [keyRequestsOutput_run, he]⟩
    · intro o ks p hall
      obtain ⟨vs, hvs⟩ := rangeMap_all_ok (fun k => KeyRequest.mapKeyRequest E KeyRequest.zero k) ks hall
      exact ⟨_, by rw [keyRequestsOutput_run, hvs]⟩
    · intro o ks p out hout
      rw [keyRequestsOutput_run] at hout
      cases hr : rangeMap (fun k => KeyRequest.mapKeyRequest E KeyRequest.zero k) ks with
      | error e => simp [hr] at hout
      | ok m =>
        simp only [hr, Except.ok.injEq] at hout
        subst hout
        obtain ⟨hlen, hidx⟩ := rangeMap_ok (fun k => KeyRequest.mapKeyRequest E KeyRequest.zero k) ks m hr
        refine ⟨hlen, hidx, ?_, ?_, ?_⟩
        · intro pg hp
          subst hp
          rfl
        · intro hp
          subst hp
          rfl
        · intro hp ho
          subst hp
          subst ho
          rfl
  · refine ⟨fun o => rfl, fun o p => rfl, ?_, ?_, ?_⟩
    · intro o ks p hfail
      obtain ⟨e, he⟩ := rangeMap_error (fun k => Keychain.mapKeychain E Keychain.zero k) ks hfail
      exact ⟨e, by rw [keychainsOutput_run, he]⟩
    · intro o ks p hall
      obtain ⟨vs, hvs⟩ := rangeMap_all_ok (fun k => Keychain.mapKeychain E Keychain.zero k) ks hall
      exact ⟨_, by rw [keychainsOutput_run, hvs]⟩
    · intro o ks p out hout
      rw [keychainsOutput_run] at hout
      cases hr : rangeMap (fun k => Keychain.mapKeychain E Keychain.zero k) ks with
      | error e => simp [hr] at hout
      | ok m =>
        simp only [hr, Except.ok.injEq] at hout
        subst hout
        obtain ⟨hlen, hidx⟩ := rangeMap_ok (fun k => Keychain.mapKeychain E Keychain.zero k) ks m hr
        refine ⟨hlen, hidx, ?_, ?_, ?_⟩
        · intro pg hp
          subst hp
          rfl
        · intro hp
          subst hp
          rfl
        · intro hp ho
          subst hp
          subst ho
          rfl
  · refine ⟨fun o => rfl, fun o p => rfl, ?_, ?_, ?_⟩
    · intro o ks p hfail
      obtain ⟨e, he⟩ := rangeMap_error (fun k => SignRequest.mapSignRequest E SignRequest.zero k) ks hfail
      exact ⟨e, by rw [signRequestsOutput_run, he]⟩
    · intro o ks p hall
      obtain ⟨vs, hvs⟩ := rangeMap_all_ok (fun k => SignRequest.mapSignRequest E SignRequest.zero k) ks hall
      exact ⟨_, by rw [signRequestsOutput_run, hvs]⟩
    · intro o ks p out hout
      rw [signRequestsOutput_run] at hout
      cases hr : rangeMap (fun k => SignRequest.mapSignRequest E SignRequest.zero k) ks with
      | error e => simp [hr] at hout
      | ok m =>
        simp only [hr, Except.ok.injEq] at hout
        subst hout
        obtain ⟨hlen, hidx⟩ := rangeMap_ok (fun k => SignRequest.mapSignRequest E SignRequest.zero k) ks m hr
        refine ⟨hlen, hidx, ?_, ?_, ?_⟩
        · intro pg hp
          subst hp
          rfl
        · intro hp
          subst hp
          rfl
        · intro hp ho
          subst hp
          subst ho
          rfl
  · refine ⟨fun o => rfl, fun o p => rfl, ?_, ?_, ?_⟩
    · intro o ks p hfail
      obtain ⟨e, he⟩ := rangeMap_error (fun k => Space.mapSpace E Space.zero k) ks hfail
      exact ⟨e, by rw [spacesOutput_run, he]⟩
    · intro o ks p hall
      obtain ⟨vs, hvs⟩ := rangeMap_all_ok (fun k => Space.mapSpace E Space.zero k) ks hall
      exact ⟨_, by rw [spacesOutput_run, hvs]⟩
    · intro o ks p out hout
      rw [spacesOutput_run] at hout
      cases hr : rangeMap (fun k => Space.mapSpace E Space.zero k) ks with
      | error e => simp [hr] at hout
      | ok m =>
        simp only [hr, Except.ok.injEq] at hout
        subst hout
        obtain ⟨hlen, hidx⟩ := rangeMap_ok (fun k => Space.mapSpace E Space.zero k) ks m hr
        refine ⟨hlen, hidx, ?_, ?_, ?_⟩
        · intro pg hp
          subst hp
          rfl
        · intro hp
          subst hp
          rfl
        · intro hp ho
          subst hp
          subst ho
          rfl

/-- Witness of `list_response_mapping`: a response with one space, whose
creator is a valid address, and no pagination maps on a new output. -/
theorem list_response_mapping_witness :
    ∃ out, spacesOutput.FromResponse envSample spacesOutput.zero
        (some { Pagination := none,
                Spaces := some [{ Id := 1, Creator := "warden1creator", Owners := [],
                                  Nonce := 0, ApproveAdminTemplateId := 0,
                                  RejectAdminTemplateId := 0, ApproveSignTemplateId := 0,
                                  RejectSignTemplateId := 0 }] }) = .ok out :=
  (list_response_mapping envSample).2.2.2.2.2.2.2.1 spacesOutput.zero
    [{ Id := 1, Creator := "warden1creator", Owners := [], Nonce := 0,
       ApproveAdminTemplateId := 0, RejectAdminTemplateId := 0, ApproveSignTemplateId := 0,
       RejectSignTemplateId := 0 }] none
    (fun k hk => by
      rw [List.mem_singleton] at hk
      subst hk
      exact ⟨_, rfl⟩)

end Warden
